import Mathlib

/-!
Verification development for the AI-Evolution-Simulator core
(`src/genome.rs`, `src/entity.rs`, `src/brain.rs`, `src/spatial_hash.rs`,
`src/world.rs`, `src/simulation.rs`).

Modelling conventions:
* `f32` gene / coordinate / state values are embedded as exact rationals `ℚ`;
  the claims under study are structural (which entries are copied where,
  which guards fire, what is clamped), not about rounding.
* The ChaCha8 PRNG is embedded as an oracle stream `Nat → ℚ`: the `k`-th
  element is the value returned by the `k`-th draw (`gen` / `gen_range`)
  consumed by the function under study, in the source's draw order.
  Integer draws (`gen_range(0..m)`) are passed as an explicit `Nat` pick.
* Rust `Vec<T>` is a Lean `List`; in-bounds indexing is embedded as `getD`
  with the type's zero default (the source only indexes in bounds under the
  length invariants hypothesised by the theorems).
-/

set_option maxRecDepth 8000

namespace AIEvo

/-- `config::BRAIN_SENSOR_NEURONS`. -/
def BRAIN_SENSOR_NEURONS : Nat := 15

/-- `config::BRAIN_MOTOR_NEURONS`. -/
def BRAIN_MOTOR_NEURONS : Nat := 10

/-- `config::BRAIN_INTERNEURONS_DEFAULT`. -/
def BRAIN_INTERNEURONS_DEFAULT : Nat := 7

/-- `config::BRAIN_MIN_INTERNEURONS`. -/
def BRAIN_MIN_INTERNEURONS : Nat := 3

/-- `config::BRAIN_MAX_INTERNEURONS`. -/
def BRAIN_MAX_INTERNEURONS : Nat := 16

/-- `config::STRUCTURAL_ADD_PROB` (= 0.01). -/
def STRUCTURAL_ADD_PROB : ℚ := 1/100

/-- `config::STRUCTURAL_REMOVE_PROB` (= 0.01). -/
def STRUCTURAL_REMOVE_PROB : ℚ := 1/100

/-- `genome::BODY_PARAMS_COUNT`. -/
def BODY_PARAMS_COUNT : Nat := 9

/-- Rust `f32::clamp(lo, hi)`: `if x < lo { lo } else if x > hi { hi } else { x }`. -/
def rclamp (x lo hi : ℚ) : ℚ := if x < lo then lo else if hi < x then hi else x

/-- `genome.rs`: `Genome` — interneuron count plus the flat gene array in
layout `[weights: n*n][biases: n][taus: n][body_params: 9]`. -/
structure Genome where
  inter_neurons : Nat
  genes : List ℚ
deriving DecidableEq

/-- Gene array access `self.genes[i]` (total via `getD`). -/
def geneAt (g : Genome) (i : Nat) : ℚ := g.genes.getD i 0

/-- `Genome::clamp_interneuron_count`. -/
def clamp_interneuron_count (i : Nat) : Nat :=
  max BRAIN_MIN_INTERNEURONS (min i BRAIN_MAX_INTERNEURONS)

/-- `Genome::total_neurons`. -/
def Genome.total_neurons (g : Genome) : Nat :=
  BRAIN_SENSOR_NEURONS + g.inter_neurons + BRAIN_MOTOR_NEURONS

/-- `Genome::neural_gene_len`. -/
def Genome.neural_gene_len (g : Genome) : Nat :=
  g.total_neurons * g.total_neurons + g.total_neurons + g.total_neurons

/-- `Genome::total_gene_len`. -/
def Genome.total_gene_len (g : Genome) : Nat :=
  g.neural_gene_len + BODY_PARAMS_COUNT

/-- `Genome::total_gene_len_for_inter`. -/
def total_gene_len_for_inter (interNeurons : Nat) : Nat :=
  let n := BRAIN_SENSOR_NEURONS + clamp_interneuron_count interNeurons + BRAIN_MOTOR_NEURONS
  n * n + n + n + BODY_PARAMS_COUNT

/-- `Genome::random_with_inter_neurons`: clamp the count and fill the gene
array with `len` successive draws. -/
def random_with_inter_neurons (rng : Nat → ℚ) (interNeurons : Nat) : Genome :=
  let i := clamp_interneuron_count interNeurons
  { inter_neurons := i,
    genes := List.ofFn (n := total_gene_len_for_inter i) fun k => rng k.val }

/-- `Genome::random`. -/
def Genome.random (rng : Nat → ℚ) : Genome :=
  random_with_inter_neurons rng BRAIN_INTERNEURONS_DEFAULT

/-- `Genome::from_raw`: normalize the gene array to the expected length for
the clamped interneuron count — truncate if long, pad with `0.5` if short. -/
def from_raw (interNeurons : Nat) (genes : List ℚ) : Genome :=
  let i := clamp_interneuron_count interNeurons
  let expected := total_gene_len_for_inter i
  { inter_neurons := i,
    genes := genes.take expected ++ List.replicate (expected - genes.length) (1/2) }

/-- `Genome::body_genes_copy` read at offset `b` (< 9): the stored body gene
when present, `0.5` when the array is too short. -/
def bodyCopyAt (g : Genome) (b : Nat) : ℚ :=
  if g.neural_gene_len + b < g.genes.length then geneAt g (g.neural_gene_len + b) else 1/2

/-- Index remap used by `add_interneuron_at_end_of_inter_block`: subtract 1
from any new index strictly greater than the insertion index. -/
def remapDown (insertIdx i : Nat) : Nat := if insertIdx < i then i - 1 else i

/-- Inverse remap used by `remove_random_interneuron`: add 1 to any new index
greater than or equal to the removal index. -/
def remapUp (removeIdx i : Nat) : Nat := if removeIdx ≤ i then i + 1 else i

/-- Count of fresh rng draws made by the weight loop of
`add_interneuron_at_end_of_inter_block` strictly before reaching row-major
position `(toNew, fromNew)` of the new weight block (one draw per position
whose row or column equals the insertion index). -/
def wDrawsBefore (newN insertIdx toNew fromNew : Nat) : Nat :=
  (if toNew ≤ insertIdx then toNew else newN + (toNew - 1)) +
  (if toNew = insertIdx then fromNew else if insertIdx < fromNew then 1 else 0)

/-- The value written by `add_interneuron_at_end_of_inter_block` at flat
index `k` of the freshly sized gene array. -/
def addGeneAt (g : Genome) (rng : Nat → ℚ) (k : Nat) : ℚ :=
  let oldN := g.total_neurons
  let insertIdx := BRAIN_SENSOR_NEURONS + g.inter_neurons
  let newN := oldN + 1
  let wTotal := 2 * newN - 1
  if k < newN * newN then
    let toNew := k / newN
    let fromNew := k % newN
    if toNew = insertIdx ∨ fromNew = insertIdx then
      rng (wDrawsBefore newN insertIdx toNew fromNew)
    else
      geneAt g (remapDown insertIdx toNew * oldN + remapDown insertIdx fromNew)
  else if k < newN * newN + newN then
    let i := k - newN * newN
    if i = insertIdx then rng wTotal
    else geneAt g (oldN * oldN + remapDown insertIdx i)
  else if k < newN * newN + newN + newN then
    let i := k - (newN * newN + newN)
    if i = insertIdx then rng (wTotal + 1)
    else geneAt g (oldN * oldN + oldN + remapDown insertIdx i)
  else
    bodyCopyAt g (k - (newN * newN + newN + newN))

/-- Length of the gene array built by the insert-interneuron routine. -/
def addLen (g : Genome) : Nat :=
  let newN := g.total_neurons + 1
  newN * newN + newN + newN + BODY_PARAMS_COUNT

/-- `Genome::add_interneuron_at_end_of_inter_block`: no-op at the maximum;
otherwise rebuild the gene array for `new_n = old_n + 1`, drawing fresh genes
for every weight/bias/tau entry touching the inserted index and copying all
other entries (and the body tail) from the remapped old indices. -/
def Genome.add_interneuron_at_end_of_inter_block (g : Genome) (rng : Nat → ℚ) : Genome :=
  if BRAIN_MAX_INTERNEURONS ≤ g.inter_neurons then g
  else
    { inter_neurons := g.inter_neurons + 1,
      genes := List.ofFn (n := addLen g) fun idx => addGeneAt g rng idx.val }

/-- The value written by `remove_random_interneuron` (removal index
`BRAIN_SENSOR_NEURONS + pick`) at flat index `k` of the shrunk gene array. -/
def removeGeneAt (g : Genome) (pick : Nat) (k : Nat) : ℚ :=
  let oldN := g.total_neurons
  let removeIdx := BRAIN_SENSOR_NEURONS + pick
  let newN := oldN - 1
  if k < newN * newN then
    let toNew := k / newN
    let fromNew := k % newN
    geneAt g (remapUp removeIdx toNew * oldN + remapUp removeIdx fromNew)
  else if k < newN * newN + newN then
    geneAt g (oldN * oldN + remapUp removeIdx (k - newN * newN))
  else if k < newN * newN + newN + newN then
    geneAt g (oldN * oldN + oldN + remapUp removeIdx (k - (newN * newN + newN)))
  else
    bodyCopyAt g (k - (newN * newN + newN + newN))

/-- Length of the gene array built by the remove-interneuron routine. -/
def removeLen (g : Genome) : Nat :=
  let newN := g.total_neurons - 1
  newN * newN + newN + newN + BODY_PARAMS_COUNT

/-- `Genome::remove_random_interneuron`: no-op at the minimum; otherwise the
drawn interneuron offset `pick` (the source draws `gen_range(0..old_inter)`)
fixes `remove_idx = sensor_count + pick`, and the gene array is rebuilt for
`new_n = old_n - 1` by deleting that row/column/entry and closing the gap. -/
def Genome.remove_random_interneuron (g : Genome) (pick : Nat) : Genome :=
  if g.inter_neurons ≤ BRAIN_MIN_INTERNEURONS then g
  else
    { inter_neurons := g.inter_neurons - 1,
      genes := List.ofFn (n := removeLen g) fun idx => removeGeneAt g pick idx.val }

/-- `Genome::body_gene`. -/
def Genome.body_gene (g : Genome) (offset : Nat) : ℚ := geneAt g (g.neural_gene_len + offset)

/-- `Genome::mutation_rate`: `0.01 + gene * 0.14`. -/
def Genome.mutation_rate (g : Genome) : ℚ := 1/100 + g.body_gene 7 * (14/100)

/-- `Genome::mutation_sigma`: `0.02 + gene * 0.28`. -/
def Genome.mutation_sigma (g : Genome) : ℚ := 2/100 + g.body_gene 8 * (28/100)

/-- `Genome::mutate`: per-gene, with probability `rate` (decoded from the
parent's own genes) add the drawn perturbation and clamp into `[0,1]`; then
at most one structural change — add first (when the add coin fires and the
count is below the maximum), else possibly remove (when the remove coin
fires and the count is above the minimum). `coin i` is the `gen::<f32>()`
draw for gene `i`, `delta i` the perturbation drawn for it, `sAdd`/`sRem`
the two structural coins, `removePick` the drawn interneuron offset. -/
def Genome.mutate (g : Genome) (coin delta : Nat → ℚ) (sAdd sRem : ℚ)
    (addRng : Nat → ℚ) (removePick : Nat) : Genome :=
  let rate := g.mutation_rate
  let child : Genome :=
    { inter_neurons := g.inter_neurons,
      genes := List.ofFn (n := g.genes.length) fun i =>
        if coin i.val < rate then rclamp (geneAt g i.val + delta i.val) 0 1
        else geneAt g i.val }
  if sAdd < STRUCTURAL_ADD_PROB then
    if child.inter_neurons < BRAIN_MAX_INTERNEURONS then
      child.add_interneuron_at_end_of_inter_block addRng
    else child
  else if sRem < STRUCTURAL_REMOVE_PROB then
    if BRAIN_MIN_INTERNEURONS < child.inter_neurons then
      child.remove_random_interneuron (removePick % child.inter_neurons)
    else child
  else child

/-! ### Basic list-access lemmas -/

theorem getD_ofFn {n : Nat} (f : Fin n → ℚ) (k : Nat) (h : k < n) :
    (List.ofFn f).getD k 0 = f ⟨k, h⟩ := by
  rw [List.getD_eq_getElem _ _ (by simpa using h), List.getElem_ofFn]

theorem rowmajor_lt {a b n : Nat} (ha : a < n) (hb : b < n) : a * n + b < n * n := by
  calc a * n + b < a * n + n := by omega
  _ = (a + 1) * n := by ring
  _ ≤ n * n := Nat.mul_le_mul_right n ha

theorem rowmajor_div {a b n : Nat} (hb : b < n) : (a * n + b) / n = a := by
  rw [Nat.add_comm, Nat.mul_comm, Nat.add_mul_div_left _ _ (by omega), Nat.div_eq_of_lt hb]
  omega

theorem rowmajor_mod {a b n : Nat} (hb : b < n) : (a * n + b) % n = b := by
  rw [Nat.add_comm, Nat.mul_comm, Nat.add_mul_mod_self_left, Nat.mod_eq_of_lt hb]

theorem total_neurons_pos (g : Genome) : 0 < g.total_neurons := by
  simp [Genome.total_neurons, BRAIN_SENSOR_NEURONS, BRAIN_MOTOR_NEURONS]

theorem remapDown_remapUp (i x : Nat) : remapDown i (remapUp i x) = x := by
  unfold remapUp remapDown
  by_cases h : i ≤ x
  · rw [if_pos h, if_pos (by omega)]
    omega
  · rw [if_neg h, if_neg (by omega)]

theorem remapUp_lt {i t n : Nat} (ht : t < n) : remapUp i t < n + 1 := by
  unfold remapUp; split <;> omega

theorem remapUp_ne (i t : Nat) : remapUp i t ≠ i := by
  unfold remapUp; split <;> omega

/-! ### Unfolding lemmas for the structural mutations -/

theorem add_inter_eq (g : Genome) (rng : Nat → ℚ)
    (h : g.inter_neurons < BRAIN_MAX_INTERNEURONS) :
    (g.add_interneuron_at_end_of_inter_block rng).inter_neurons = g.inter_neurons + 1 := by
  unfold Genome.add_interneuron_at_end_of_inter_block
  rw [if_neg (by omega)]

theorem add_genes_length (g : Genome) (rng : Nat → ℚ)
    (h : g.inter_neurons < BRAIN_MAX_INTERNEURONS) :
    (g.add_interneuron_at_end_of_inter_block rng).genes.length = addLen g := by
  unfold Genome.add_interneuron_at_end_of_inter_block
  rw [if_neg (by omega)]
  show (List.ofFn fun idx : Fin (addLen g) => addGeneAt g rng idx.val).length = addLen g
  exact List.length_ofFn _

theorem add_geneAt (g : Genome) (rng : Nat → ℚ)
    (h : g.inter_neurons < BRAIN_MAX_INTERNEURONS) (k : Nat) (hk : k < addLen g) :
    geneAt (g.add_interneuron_at_end_of_inter_block rng) k = addGeneAt g rng k := by
  unfold Genome.add_interneuron_at_end_of_inter_block
  rw [if_neg (by omega)]
  show (List.ofFn fun idx : Fin (addLen g) => addGeneAt g rng idx.val).getD k 0 = addGeneAt g rng k
  exact getD_ofFn _ k hk

theorem remove_inter_eq (g : Genome) (pick : Nat)
    (h : BRAIN_MIN_INTERNEURONS < g.inter_neurons) :
    (g.remove_random_interneuron pick).inter_neurons = g.inter_neurons - 1 := by
  unfold Genome.remove_random_interneuron
  rw [if_neg (by omega)]

theorem remove_genes_length (g : Genome) (pick : Nat)
    (h : BRAIN_MIN_INTERNEURONS < g.inter_neurons) :
    (g.remove_random_interneuron pick).genes.length = removeLen g := by
  unfold Genome.remove_random_interneuron
  rw [if_neg (by omega)]
  show (List.ofFn fun idx : Fin (removeLen g) => removeGeneAt g pick idx.val).length = removeLen g
  exact List.length_ofFn _

theorem remove_geneAt (g : Genome) (pick : Nat)
    (h : BRAIN_MIN_INTERNEURONS < g.inter_neurons) (k : Nat) (hk : k < removeLen g) :
    geneAt (g.remove_random_interneuron pick) k = removeGeneAt g pick k := by
  unfold Genome.remove_random_interneuron
  rw [if_neg (by omega)]
  show (List.ofFn fun idx : Fin (removeLen g) => removeGeneAt g pick idx.val).getD k 0
      = removeGeneAt g pick k
  exact getD_ofFn _ k hk

/-! ### Entry-level characterization of the insert-interneuron gene array -/

theorem addGeneAt_weight_copy (g : Genome) (rng : Nat → ℚ) {t f : Nat}
    (ht : t < g.total_neurons + 1) (hf : f < g.total_neurons + 1)
    (ht2 : t ≠ BRAIN_SENSOR_NEURONS + g.inter_neurons)
    (hf2 : f ≠ BRAIN_SENSOR_NEURONS + g.inter_neurons) :
    addGeneAt g rng (t * (g.total_neurons + 1) + f) =
      geneAt g (remapDown (BRAIN_SENSOR_NEURONS + g.inter_neurons) t * g.total_neurons
        + remapDown (BRAIN_SENSOR_NEURONS + g.inter_neurons) f) := by
  simp only [addGeneAt]
  rw [if_pos (rowmajor_lt ht hf), rowmajor_div hf, rowmajor_mod hf, if_neg (by omega)]

theorem addGeneAt_bias_copy (g : Genome) (rng : Nat → ℚ) {i : Nat}
    (hi : i < g.total_neurons + 1)
    (hi2 : i ≠ BRAIN_SENSOR_NEURONS + g.inter_neurons) :
    addGeneAt g rng ((g.total_neurons + 1) * (g.total_neurons + 1) + i) =
      geneAt g (g.total_neurons * g.total_neurons
        + remapDown (BRAIN_SENSOR_NEURONS + g.inter_neurons) i) := by
  simp only [addGeneAt]
  rw [if_neg (by omega), if_pos (by omega), Nat.add_sub_cancel_left, if_neg hi2]

theorem addGeneAt_tau_copy (g : Genome) (rng : Nat → ℚ) {i : Nat}
    (hi : i < g.total_neurons + 1)
    (hi2 : i ≠ BRAIN_SENSOR_NEURONS + g.inter_neurons) :
    addGeneAt g rng ((g.total_neurons + 1) * (g.total_neurons + 1) + (g.total_neurons + 1) + i) =
      geneAt g (g.total_neurons * g.total_neurons + g.total_neurons
        + remapDown (BRAIN_SENSOR_NEURONS + g.inter_neurons) i) := by
  simp only [addGeneAt]
  rw [if_neg (by omega), if_neg (by omega), if_pos (by omega), Nat.add_sub_cancel_left,
    if_neg hi2]

theorem addGeneAt_body (g : Genome) (rng : Nat → ℚ) (b : Nat) :
    addGeneAt g rng ((g.total_neurons + 1) * (g.total_neurons + 1) + (g.total_neurons + 1)
        + (g.total_neurons + 1) + b) =
      bodyCopyAt g b := by
  simp only [addGeneAt]
  rw [if_neg (by omega), if_neg (by omega), if_neg (by omega), Nat.add_sub_cancel_left]

theorem bodyCopyAt_eq (g : Genome) {b : Nat} (hb : b < BODY_PARAMS_COUNT)
    (hWf : g.genes.length = g.total_gene_len) :
    bodyCopyAt g b = geneAt g (g.neural_gene_len + b) := by
  unfold bodyCopyAt
  rw [if_pos (by unfold Genome.total_gene_len BODY_PARAMS_COUNT at *; omega)]

/-! ### Entry-level characterization of the remove-interneuron gene array -/

theorem removeGeneAt_weight (g : Genome) (pick : Nat) {t f : Nat}
    (ht : t < g.total_neurons - 1) (hf : f < g.total_neurons - 1) :
    removeGeneAt g pick (t * (g.total_neurons - 1) + f) =
      geneAt g (remapUp (BRAIN_SENSOR_NEURONS + pick) t * g.total_neurons
        + remapUp (BRAIN_SENSOR_NEURONS + pick) f) := by
  simp only [removeGeneAt]
  rw [if_pos (rowmajor_lt ht hf), rowmajor_div hf, rowmajor_mod hf]

theorem removeGeneAt_bias (g : Genome) (pick : Nat) {i : Nat}
    (hi : i < g.total_neurons - 1) :
    removeGeneAt g pick ((g.total_neurons - 1) * (g.total_neurons - 1) + i) =
      geneAt g (g.total_neurons * g.total_neurons
        + remapUp (BRAIN_SENSOR_NEURONS + pick) i) := by
  simp only [removeGeneAt]
  rw [if_neg (by omega), if_pos (by omega), Nat.add_sub_cancel_left]

theorem removeGeneAt_tau (g : Genome) (pick : Nat) {i : Nat}
    (hi : i < g.total_neurons - 1) :
    removeGeneAt g pick ((g.total_neurons - 1) * (g.total_neurons - 1) + (g.total_neurons - 1)
        + i) =
      geneAt g (g.total_neurons * g.total_neurons + g.total_neurons
        + remapUp (BRAIN_SENSOR_NEURONS + pick) i) := by
  simp only [removeGeneAt]
  rw [if_neg (by omega), if_neg (by omega), if_pos (by omega), Nat.add_sub_cancel_left]

theorem removeGeneAt_body (g : Genome) (pick : Nat) (b : Nat) :
    removeGeneAt g pick ((g.total_neurons - 1) * (g.total_neurons - 1) + (g.total_neurons - 1)
        + (g.total_neurons - 1) + b) =
      bodyCopyAt g b := by
  simp only [removeGeneAt]
  rw [if_neg (by omega), if_neg (by omega), if_neg (by omega), Nat.add_sub_cancel_left]

/-! ### Length well-formedness helpers -/

theorem add_wf (g : Genome) (rng : Nat → ℚ) (hMax : g.inter_neurons < BRAIN_MAX_INTERNEURONS) :
    (g.add_interneuron_at_end_of_inter_block rng).genes.length
      = (g.add_interneuron_at_end_of_inter_block rng).total_gene_len := by
  rw [add_genes_length g rng hMax]
  simp only [addLen, Genome.total_gene_len, Genome.neural_gene_len, Genome.total_neurons,
    add_inter_eq g rng hMax]
  ring

theorem remove_wf (g : Genome) (pick : Nat) (h : BRAIN_MIN_INTERNEURONS < g.inter_neurons) :
    (g.remove_random_interneuron pick).genes.length
      = (g.remove_random_interneuron pick).total_gene_len := by
  obtain ⟨j, hj⟩ : ∃ j, g.inter_neurons = j + 1 := ⟨g.inter_neurons - 1, by omega⟩
  rw [remove_genes_length g pick h]
  simp only [removeLen, Genome.total_gene_len, Genome.neural_gene_len, Genome.total_neurons,
    remove_inter_eq g pick h, hj]
  have h1 : BRAIN_SENSOR_NEURONS + (j + 1) + BRAIN_MOTOR_NEURONS - 1
      = BRAIN_SENSOR_NEURONS + j + BRAIN_MOTOR_NEURONS := by
    simp only [BRAIN_SENSOR_NEURONS, BRAIN_MOTOR_NEURONS]
    omega
  have h2 : j + 1 - 1 = j := by omega
  rw [h1, h2]

theorem clamp_idem (i : Nat) :
    clamp_interneuron_count (clamp_interneuron_count i) = clamp_interneuron_count i := by
  unfold clamp_interneuron_count BRAIN_MIN_INTERNEURONS BRAIN_MAX_INTERNEURONS
  omega

/-- C1: insert-interneuron on a genome below the interneuron maximum bumps the
interneuron count by exactly one, re-derives the gene-array length, copies
every weight gene between two pre-existing neurons from the remapped old
index (subtract 1 from any index above `insert_idx`), applies the same remap
entry-wise to the bias and tau blocks, and copies the body-parameter tail
unchanged. -/
theorem C1_insert_interneuron (g : Genome) (rng : Nat → ℚ)
    (hWf : g.genes.length = g.total_gene_len)
    (hMax : g.inter_neurons < BRAIN_MAX_INTERNEURONS) :
    (g.add_interneuron_at_end_of_inter_block rng).inter_neurons = g.inter_neurons + 1 ∧
    (g.add_interneuron_at_end_of_inter_block rng).genes.length
      = (g.add_interneuron_at_end_of_inter_block rng).total_gene_len ∧
    (∀ t f : Nat, t < g.total_neurons + 1 → f < g.total_neurons + 1 →
      t ≠ BRAIN_SENSOR_NEURONS + g.inter_neurons →
      f ≠ BRAIN_SENSOR_NEURONS + g.inter_neurons →
      geneAt (g.add_interneuron_at_end_of_inter_block rng) (t * (g.total_neurons + 1) + f)
        = geneAt g (remapDown (BRAIN_SENSOR_NEURONS + g.inter_neurons) t * g.total_neurons
            + remapDown (BRAIN_SENSOR_NEURONS + g.inter_neurons) f)) ∧
    (∀ i : Nat, i < g.total_neurons + 1 →
      i ≠ BRAIN_SENSOR_NEURONS + g.inter_neurons →
      geneAt (g.add_interneuron_at_end_of_inter_block rng)
          ((g.total_neurons + 1) * (g.total_neurons + 1) + i)
        = geneAt g (g.total_neurons * g.total_neurons
            + remapDown (BRAIN_SENSOR_NEURONS + g.inter_neurons) i)) ∧
    (∀ i : Nat, i < g.total_neurons + 1 →
      i ≠ BRAIN_SENSOR_NEURONS + g.inter_neurons →
      geneAt (g.add_interneuron_at_end_of_inter_block rng)
          ((g.total_neurons + 1) * (g.total_neurons + 1) + (g.total_neurons + 1) + i)
        = geneAt g (g.total_neurons * g.total_neurons + g.total_neurons
            + remapDown (BRAIN_SENSOR_NEURONS + g.inter_neurons) i)) ∧
    (∀ b : Nat, b < BODY_PARAMS_COUNT →
      geneAt (g.add_interneuron_at_end_of_inter_block rng)
          ((g.total_neurons + 1) * (g.total_neurons + 1) + (g.total_neurons + 1)
            + (g.total_neurons + 1) + b)
        = geneAt g (g.total_neurons * g.total_neurons + g.total_neurons + g.total_neurons
            + b)) := by
  refine ⟨add_inter_eq g rng hMax, add_wf g rng hMax, ?_, ?_, ?_, ?_⟩
  · intro t f ht hf ht2 hf2
    rw [add_geneAt g rng hMax _ (by simp only [addLen]; have := rowmajor_lt ht hf; omega)]
    exact addGeneAt_weight_copy g rng ht hf ht2 hf2
  · intro i hi hi2
    rw [add_geneAt g rng hMax _ (by simp only [addLen]; omega)]
    exact addGeneAt_bias_copy g rng hi hi2
  · intro i hi hi2
    rw [add_geneAt g rng hMax _ (by simp only [addLen]; omega)]
    exact addGeneAt_tau_copy g rng hi hi2
  · intro b hb
    rw [add_geneAt g rng hMax _
        (by simp only [addLen, BODY_PARAMS_COUNT] at hb ⊢; omega)]
    rw [addGeneAt_body g rng b, bodyCopyAt_eq g hb hWf]
    simp only [Genome.neural_gene_len]

/-- Witness for C1 at a concrete minimal genome (3 interneurons, all genes 1/2). -/
theorem C1_insert_interneuron_witness :
    ((Genome.mk 3 (List.replicate 849 (1/2))).add_interneuron_at_end_of_inter_block
        (fun _ => 0)).inter_neurons = 4 :=
  ((C1_insert_interneuron (Genome.mk 3 (List.replicate 849 (1/2))) (fun _ => 0)
      (by decide) (by decide)).1).trans (by decide)

/-- C2: inserting one interneuron and then removing the interneuron at the
inserted position (`pick = old interneuron count`, so
`remove_idx = sensor_count + old_inter = insert_idx`) restores the original
interneuron count and restores the gene array bit-for-bit. -/
theorem C2_insert_remove_roundtrip (g : Genome) (rng : Nat → ℚ)
    (hWf : g.genes.length = g.total_gene_len)
    (hMin : BRAIN_MIN_INTERNEURONS ≤ g.inter_neurons)
    (hMax : g.inter_neurons < BRAIN_MAX_INTERNEURONS) :
    ((g.add_interneuron_at_end_of_inter_block rng).remove_random_interneuron
        g.inter_neurons).inter_neurons = g.inter_neurons ∧
    ((g.add_interneuron_at_end_of_inter_block rng).remove_random_interneuron
        g.inter_neurons).genes = g.genes := by
  have hI1 : (g.add_interneuron_at_end_of_inter_block rng).inter_neurons
      = g.inter_neurons + 1 := add_inter_eq g rng hMax
  have hMin1 : BRAIN_MIN_INTERNEURONS
      < (g.add_interneuron_at_end_of_inter_block rng).inter_neurons := by omega
  have hTN1 : (g.add_interneuron_at_end_of_inter_block rng).total_neurons
      = g.total_neurons + 1 := by
    simp only [Genome.total_neurons, hI1]
    omega
  have hsub : (g.add_interneuron_at_end_of_inter_block rng).total_neurons - 1
      = g.total_neurons := by omega
  have hWf1 : (g.add_interneuron_at_end_of_inter_block rng).genes.length
      = (g.add_interneuron_at_end_of_inter_block rng).total_gene_len := add_wf g rng hMax
  have hkBound : g.genes.length = g.total_neurons * g.total_neurons + g.total_neurons
      + g.total_neurons + BODY_PARAMS_COUNT := by
    rw [hWf]
    simp only [Genome.total_gene_len, Genome.neural_gene_len]
  have hRL : removeLen (g.add_interneuron_at_end_of_inter_block rng)
      = g.total_neurons * g.total_neurons + g.total_neurons + g.total_neurons
        + BODY_PARAMS_COUNT := by
    simp only [removeLen, hsub]
  refine ⟨by rw [remove_inter_eq _ _ hMin1, hI1]; omega, ?_⟩
  have hLen2 : ((g.add_interneuron_at_end_of_inter_block rng).remove_random_interneuron
      g.inter_neurons).genes.length = g.genes.length := by
    rw [remove_genes_length _ _ hMin1, hRL, hkBound]
  have key : ∀ k, k < g.genes.length →
      geneAt ((g.add_interneuron_at_end_of_inter_block rng).remove_random_interneuron
        g.inter_neurons) k = geneAt g k := by
    intro k hk
    have hkN : k < g.total_neurons * g.total_neurons + g.total_neurons + g.total_neurons
        + BODY_PARAMS_COUNT := by omega
    rw [remove_geneAt _ _ hMin1 k (by omega)]
    have h0 : 0 < g.total_neurons := total_neurons_pos g
    by_cases hw : k < g.total_neurons * g.total_neurons
    · -- weight block
      obtain ⟨t, f, ht, hf, rfl⟩ : ∃ t f, t < g.total_neurons ∧ f < g.total_neurons
          ∧ k = t * g.total_neurons + f :=
        ⟨k / g.total_neurons, k % g.total_neurons, (Nat.div_lt_iff_lt_mul h0).mpr hw,
          Nat.mod_lt _ h0, by rw [Nat.mul_comm]; exact (Nat.div_add_mod k g.total_neurons).symm⟩
      calc removeGeneAt (g.add_interneuron_at_end_of_inter_block rng) g.inter_neurons
            (t * g.total_neurons + f)
          = removeGeneAt (g.add_interneuron_at_end_of_inter_block rng) g.inter_neurons
            (t * ((g.add_interneuron_at_end_of_inter_block rng).total_neurons - 1) + f) := by
            rw [hsub]
        _ = geneAt (g.add_interneuron_at_end_of_inter_block rng)
            (remapUp (BRAIN_SENSOR_NEURONS + g.inter_neurons) t
              * (g.add_interneuron_at_end_of_inter_block rng).total_neurons
              + remapUp (BRAIN_SENSOR_NEURONS + g.inter_neurons) f) :=
            removeGeneAt_weight _ _ (by omega) (by omega)
        _ = geneAt (g.add_interneuron_at_end_of_inter_block rng)
            (remapUp (BRAIN_SENSOR_NEURONS + g.inter_neurons) t * (g.total_neurons + 1)
              + remapUp (BRAIN_SENSOR_NEURONS + g.inter_neurons) f) := by rw [hTN1]
        _ = addGeneAt g rng
            (remapUp (BRAIN_SENSOR_NEURONS + g.inter_neurons) t * (g.total_neurons + 1)
              + remapUp (BRAIN_SENSOR_NEURONS + g.inter_neurons) f) :=
            add_geneAt g rng hMax _ (by
              simp only [addLen]
              have h1 := rowmajor_lt (remapUp_lt (i := BRAIN_SENSOR_NEURONS + g.inter_neurons) ht)
                (remapUp_lt (i := BRAIN_SENSOR_NEURONS + g.inter_neurons) hf)
              omega)
        _ = geneAt g
            (remapDown (BRAIN_SENSOR_NEURONS + g.inter_neurons)
                (remapUp (BRAIN_SENSOR_NEURONS + g.inter_neurons) t) * g.total_neurons
              + remapDown (BRAIN_SENSOR_NEURONS + g.inter_neurons)
                (remapUp (BRAIN_SENSOR_NEURONS + g.inter_neurons) f)) :=
            addGeneAt_weight_copy g rng (remapUp_lt ht) (remapUp_lt hf)
              (remapUp_ne _ t) (remapUp_ne _ f)
        _ = geneAt g (t * g.total_neurons + f) := by rw [remapDown_remapUp, remapDown_remapUp]
    · by_cases hbias : k < g.total_neurons * g.total_neurons + g.total_neurons
      · -- bias block
        obtain ⟨i, hi, rfl⟩ : ∃ i, i < g.total_neurons
            ∧ k = g.total_neurons * g.total_neurons + i :=
          ⟨k - g.total_neurons * g.total_neurons, by omega, by omega⟩
        calc removeGeneAt (g.add_interneuron_at_end_of_inter_block rng) g.inter_neurons
              (g.total_neurons * g.total_neurons + i)
            = removeGeneAt (g.add_interneuron_at_end_of_inter_block rng) g.inter_neurons
              (((g.add_interneuron_at_end_of_inter_block rng).total_neurons - 1)
                * ((g.add_interneuron_at_end_of_inter_block rng).total_neurons - 1) + i) := by
              rw [hsub]
          _ = geneAt (g.add_interneuron_at_end_of_inter_block rng)
              ((g.add_interneuron_at_end_of_inter_block rng).total_neurons
                  * (g.add_interneuron_at_end_of_inter_block rng).total_neurons
                + remapUp (BRAIN_SENSOR_NEURONS + g.inter_neurons) i) :=
              removeGeneAt_bias _ _ (by omega)
          _ = geneAt (g.add_interneuron_at_end_of_inter_block rng)
              ((g.total_neurons + 1) * (g.total_neurons + 1)
                + remapUp (BRAIN_SENSOR_NEURONS + g.inter_neurons) i) := by rw [hTN1]
          _ = addGeneAt g rng ((g.total_neurons + 1) * (g.total_neurons + 1)
                + remapUp (BRAIN_SENSOR_NEURONS + g.inter_neurons) i) :=
              add_geneAt g rng hMax _ (by
                simp only [addLen]
                have h1 := remapUp_lt (i := BRAIN_SENSOR_NEURONS + g.inter_neurons) hi
                omega)
          _ = geneAt g (g.total_neurons * g.total_neurons
                + remapDown (BRAIN_SENSOR_NEURONS + g.inter_neurons)
                  (remapUp (BRAIN_SENSOR_NEURONS + g.inter_neurons) i)) :=
              addGeneAt_bias_copy g rng (remapUp_lt hi) (remapUp_ne _ i)
          _ = geneAt g (g.total_neurons * g.total_neurons + i) := by rw [remapDown_remapUp]
      · by_cases htau : k < g.total_neurons * g.total_neurons + g.total_neurons
            + g.total_neurons
        · -- tau block
          obtain ⟨i, hi, rfl⟩ : ∃ i, i < g.total_neurons
              ∧ k = g.total_neurons * g.total_neurons + g.total_neurons + i :=
            ⟨k - (g.total_neurons * g.total_neurons + g.total_neurons), by omega, by omega⟩
          calc removeGeneAt (g.add_interneuron_at_end_of_inter_block rng) g.inter_neurons
                (g.total_neurons * g.total_neurons + g.total_neurons + i)
              = removeGeneAt (g.add_interneuron_at_end_of_inter_block rng) g.inter_neurons
                (((g.add_interneuron_at_end_of_inter_block rng).total_neurons - 1)
                    * ((g.add_interneuron_at_end_of_inter_block rng).total_neurons - 1)
                  + ((g.add_interneuron_at_end_of_inter_block rng).total_neurons - 1)
                  + i) := by rw [hsub]
            _ = geneAt (g.add_interneuron_at_end_of_inter_block rng)
                ((g.add_interneuron_at_end_of_inter_block rng).total_neurons
                    * (g.add_interneuron_at_end_of_inter_block rng).total_neurons
                  + (g.add_interneuron_at_end_of_inter_block rng).total_neurons
                  + remapUp (BRAIN_SENSOR_NEURONS + g.inter_neurons) i) :=
                removeGeneAt_tau _ _ (by omega)
            _ = geneAt (g.add_interneuron_at_end_of_inter_block rng)
                ((g.total_neurons + 1) * (g.total_neurons + 1) + (g.total_neurons + 1)
                  + remapUp (BRAIN_SENSOR_NEURONS + g.inter_neurons) i) := by rw [hTN1]
            _ = addGeneAt g rng ((g.total_neurons + 1) * (g.total_neurons + 1)
                  + (g.total_neurons + 1)
                  + remapUp (BRAIN_SENSOR_NEURONS + g.inter_neurons) i) :=
                add_geneAt g rng hMax _ (by
                  simp only [addLen]
                  have h1 := remapUp_lt (i := BRAIN_SENSOR_NEURONS + g.inter_neurons) hi
                  omega)
            _ = geneAt g (g.total_neurons * g.total_neurons + g.total_neurons
                  + remapDown (BRAIN_SENSOR_NEURONS + g.inter_neurons)
                    (remapUp (BRAIN_SENSOR_NEURONS + g.inter_neurons) i)) :=
                addGeneAt_tau_copy g rng (remapUp_lt hi) (remapUp_ne _ i)
            _ = geneAt g (g.total_neurons * g.total_neurons + g.total_neurons + i) := by
                rw [remapDown_remapUp]
        · -- body block
          obtain ⟨b, hb, rfl⟩ : ∃ b, b < BODY_PARAMS_COUNT
              ∧ k = g.total_neurons * g.total_neurons + g.total_neurons + g.total_neurons
                + b :=
            ⟨k - (g.total_neurons * g.total_neurons + g.total_neurons + g.total_neurons),
              by omega, by omega⟩
          have hNL1 : (g.add_interneuron_at_end_of_inter_block rng).neural_gene_len
              = (g.total_neurons + 1) * (g.total_neurons + 1) + (g.total_neurons + 1)
                + (g.total_neurons + 1) := by
            simp only [Genome.neural_gene_len, hTN1]
          calc removeGeneAt (g.add_interneuron_at_end_of_inter_block rng) g.inter_neurons
                (g.total_neurons * g.total_neurons + g.total_neurons + g.total_neurons + b)
              = removeGeneAt (g.add_interneuron_at_end_of_inter_block rng) g.inter_neurons
                (((g.add_interneuron_at_end_of_inter_block rng).total_neurons - 1)
                    * ((g.add_interneuron_at_end_of_inter_block rng).total_neurons - 1)
                  + ((g.add_interneuron_at_end_of_inter_block rng).total_neurons - 1)
                  + ((g.add_interneuron_at_end_of_inter_block rng).total_neurons - 1)
                  + b) := by rw [hsub]
            _ = bodyCopyAt (g.add_interneuron_at_end_of_inter_block rng) b :=
                removeGeneAt_body _ _ b
            _ = geneAt (g.add_interneuron_at_end_of_inter_block rng)
                ((g.add_interneuron_at_end_of_inter_block rng).neural_gene_len + b) :=
                bodyCopyAt_eq _ hb hWf1
            _ = geneAt (g.add_interneuron_at_end_of_inter_block rng)
                ((g.total_neurons + 1) * (g.total_neurons + 1) + (g.total_neurons + 1)
                  + (g.total_neurons + 1) + b) := by rw [hNL1]
            _ = addGeneAt g rng ((g.total_neurons + 1) * (g.total_neurons + 1)
                  + (g.total_neurons + 1) + (g.total_neurons + 1) + b) :=
                add_geneAt g rng hMax _ (by
                  simp only [addLen, BODY_PARAMS_COUNT] at hb ⊢
                  omega)
            _ = bodyCopyAt g b := addGeneAt_body g rng b
            _ = geneAt g (g.neural_gene_len + b) := bodyCopyAt_eq g hb hWf
            _ = geneAt g (g.total_neurons * g.total_neurons + g.total_neurons
                  + g.total_neurons + b) := by
                simp only [Genome.neural_gene_len]
  apply List.ext_getElem hLen2
  intro n h1 h2
  have hk := key n h2
  simp only [geneAt] at hk
  rw [List.getD_eq_getElem _ _ h1, List.getD_eq_getElem _ _ h2] at hk
  exact hk

/-- Witness for C2 at a concrete minimal genome. -/
theorem C2_insert_remove_roundtrip_witness :
    (((Genome.mk 3 (List.replicate 849 (1/2))).add_interneuron_at_end_of_inter_block
        (fun _ => 0)).remove_random_interneuron 3).genes = List.replicate 849 (1/2) :=
  (C2_insert_remove_roundtrip (Genome.mk 3 (List.replicate 849 (1/2))) (fun _ => 0)
      (by decide) (by decide) (by decide)).2

theorem random_wf (rng : Nat → ℚ) (i : Nat) :
    (random_with_inter_neurons rng i).genes.length
      = (random_with_inter_neurons rng i).total_gene_len := by
  simp only [random_with_inter_neurons, List.length_ofFn, total_gene_len_for_inter,
    Genome.total_gene_len, Genome.neural_gene_len, Genome.total_neurons, clamp_idem]

theorem from_raw_wf (i : Nat) (gs : List ℚ) :
    (from_raw i gs).genes.length = (from_raw i gs).total_gene_len := by
  simp only [from_raw, List.length_append, List.length_take, List.length_replicate,
    total_gene_len_for_inter, Genome.total_gene_len, Genome.neural_gene_len,
    Genome.total_neurons, clamp_idem]
  omega

theorem add_wf_total (g : Genome) (rng : Nat → ℚ)
    (hWf : g.genes.length = g.total_gene_len) :
    (g.add_interneuron_at_end_of_inter_block rng).genes.length
      = (g.add_interneuron_at_end_of_inter_block rng).total_gene_len := by
  by_cases h : g.inter_neurons < BRAIN_MAX_INTERNEURONS
  · exact add_wf g rng h
  · unfold Genome.add_interneuron_at_end_of_inter_block
    rw [if_pos (by omega)]
    exact hWf

theorem remove_wf_total (g : Genome) (pick : Nat)
    (hWf : g.genes.length = g.total_gene_len) :
    (g.remove_random_interneuron pick).genes.length
      = (g.remove_random_interneuron pick).total_gene_len := by
  by_cases h : BRAIN_MIN_INTERNEURONS < g.inter_neurons
  · exact remove_wf g pick h
  · unfold Genome.remove_random_interneuron
    rw [if_pos (by omega)]
    exact hWf

/-- C3: the gene-array length invariant `genes.length == total_gene_len`
holds after every construction path (`random_with_inter_neurons`,
`from_raw`), after `mutate`, and after both structural operations. -/
theorem C3_length_invariant :
    (∀ (rng : Nat → ℚ) (i : Nat),
      (random_with_inter_neurons rng i).genes.length
        = (random_with_inter_neurons rng i).total_gene_len) ∧
    (∀ (i : Nat) (gs : List ℚ),
      (from_raw i gs).genes.length = (from_raw i gs).total_gene_len) ∧
    (∀ (g : Genome) (rng : Nat → ℚ), g.genes.length = g.total_gene_len →
      (g.add_interneuron_at_end_of_inter_block rng).genes.length
        = (g.add_interneuron_at_end_of_inter_block rng).total_gene_len) ∧
    (∀ (g : Genome) (pick : Nat), g.genes.length = g.total_gene_len →
      (g.remove_random_interneuron pick).genes.length
        = (g.remove_random_interneuron pick).total_gene_len) ∧
    (∀ (g : Genome) (coin delta : Nat → ℚ) (sAdd sRem : ℚ) (addRng : Nat → ℚ)
        (removePick : Nat), g.genes.length = g.total_gene_len →
      (g.mutate coin delta sAdd sRem addRng removePick).genes.length
        = (g.mutate coin delta sAdd sRem addRng removePick).total_gene_len) := by
  refine ⟨random_wf, from_raw_wf, fun g rng h => add_wf_total g rng h,
    fun g pick h => remove_wf_total g pick h, ?_⟩
  intro g coin delta sAdd sRem addRng removePick hWf
  have hchild : ∀ gs : List ℚ, gs.length = g.genes.length →
      (Genome.mk g.inter_neurons gs).genes.length
        = (Genome.mk g.inter_neurons gs).total_gene_len := by
    intro gs hgs
    show gs.length = (Genome.mk g.inter_neurons gs).total_gene_len
    rw [hgs, hWf]
    simp only [Genome.total_gene_len, Genome.neural_gene_len, Genome.total_neurons]
  simp only [Genome.mutate]
  split
  · split
    · exact add_wf_total _ addRng (hchild _ (List.length_ofFn _))
    · exact hchild _ (List.length_ofFn _)
  · split
    · split
      · exact remove_wf_total _ _ (hchild _ (List.length_ofFn _))
      · exact hchild _ (List.length_ofFn _)
    · exact hchild _ (List.length_ofFn _)

/-- Witness for C3: the mutate branch applied to a concrete genome, with both
structural coins firing the add path. -/
theorem C3_length_invariant_witness :
    ((Genome.mk 3 (List.replicate 849 (1/2))).mutate (fun _ => 0) (fun _ => 0) 1 1
        (fun _ => 0) 0).genes.length
      = ((Genome.mk 3 (List.replicate 849 (1/2))).mutate (fun _ => 0) (fun _ => 0) 1 1
        (fun _ => 0) 0).total_gene_len :=
  C3_length_invariant.2.2.2.2 (Genome.mk 3 (List.replicate 849 (1/2)))
    (fun _ => 0) (fun _ => 0) 1 1 (fun _ => 0) 0 (by decide)

/-! ## Entity arena (`entity.rs`)

`EntityArena` is generic in the entity payload `α`; the Rust free list is a
`Vec` popped/pushed at the back, embedded as a Lean list whose head is the
Vec's back (so `EntityArena.new`'s `(0..capacity).rev()` free list becomes
`List.range capacity`, popping 0 first exactly like the source). -/

/-- `entity.rs`: `EntityId`. -/
structure EntityId where
  index : Nat
  generation : Nat
deriving DecidableEq

/-- `entity.rs`: `EntityArena` (payload-generic). -/
structure EntityArena (α : Type) where
  entities : List (Option α)
  generations : List Nat
  free_list : List Nat
  count : Nat

/-- `EntityArena::new(capacity)`. -/
def EntityArena.new (α : Type) (capacity : Nat) : EntityArena α :=
  { entities := List.replicate capacity none,
    generations := List.replicate capacity 0,
    free_list := List.range capacity,
    count := 0 }

/-- `EntityArena::spawn`: pop the most recently freed slot if any, else grow
the backing storage by one slot; always returns `Some` handle. -/
def EntityArena.spawn {α : Type} (a : EntityArena α) (e : α) :
    Option EntityId × EntityArena α :=
  match a.free_list with
  | index :: rest =>
      (some { index := index, generation := a.generations.getD index 0 },
       { entities := a.entities.set index (some e),
         generations := a.generations,
         free_list := rest,
         count := a.count + 1 })
  | [] =>
      (some { index := a.entities.length, generation := 0 },
       { entities := a.entities ++ [some e],
         generations := a.generations ++ [0],
         free_list := [],
         count := a.count + 1 })

/-- `EntityArena::despawn`: succeeds only on an in-range, generation-matching,
occupied slot; clears it, bumps its generation, pushes it on the free list. -/
def EntityArena.despawn {α : Type} (a : EntityArena α) (id : EntityId) :
    Bool × EntityArena α :=
  if id.index < a.entities.length ∧ a.generations.getD id.index 0 = id.generation
      ∧ (a.entities.getD id.index none).isSome then
    (true,
     { entities := a.entities.set id.index none,
       generations := a.generations.set id.index (a.generations.getD id.index 0 + 1),
       free_list := id.index :: a.free_list,
       count := a.count - 1 })
  else (false, a)

/-- `EntityArena::get`: the record only when the generation matches. -/
def EntityArena.get {α : Type} (a : EntityArena α) (id : EntityId) : Option α :=
  if id.index < a.entities.length ∧ a.generations.getD id.index 0 = id.generation then
    a.entities.getD id.index none
  else none

/-- `EntityArena::get_mut`: same lookup condition as `get`. -/
def EntityArena.get_mut {α : Type} (a : EntityArena α) (id : EntityId) : Option α :=
  if id.index < a.entities.length ∧ a.generations.getD id.index 0 = id.generation then
    a.entities.getD id.index none
  else none

/-- `EntityArena::get_by_index`. -/
def EntityArena.get_by_index {α : Type} (a : EntityArena α) (index : Nat) : Option α :=
  a.entities.getD index none

/-- One iteration of the `sweep_dead` scan at slot `idx`: clear a slot holding
a non-alive entity, bump its generation and free it. -/
def sweepStep {α : Type} (alive : α → Bool) (a : EntityArena α) (idx : Nat) :
    EntityArena α :=
  match a.entities.getD idx none with
  | some e =>
      if alive e then a
      else
        { entities := a.entities.set idx none,
          generations := a.generations.set idx (a.generations.getD idx 0 + 1),
          free_list := idx :: a.free_list,
          count := a.count - 1 }
  | none => a

/-- `EntityArena::sweep_dead` (state effect; the returned dead-position list
does not influence the arena). `alive` projects the entity's alive flag. -/
def EntityArena.sweep_dead {α : Type} (alive : α → Bool) (a : EntityArena α) :
    EntityArena α :=
  (List.range a.entities.length).foldl (sweepStep alive) a

/-- The arena-mutating operations of `entity.rs`, for stating invariants over
arbitrary operation sequences. -/
inductive ArenaOp (α : Type) where
  | spawnOp (e : α)
  | despawnOp (id : EntityId)
  | sweepOp (alive : α → Bool)

/-- Apply one arena operation. -/
def applyOp {α : Type} (a : EntityArena α) : ArenaOp α → EntityArena α
  | .spawnOp e => (a.spawn e).2
  | .despawnOp id => (a.despawn id).2
  | .sweepOp alive => a.sweep_dead alive

/-- Apply a sequence of arena operations. -/
def applyOps {α : Type} (a : EntityArena α) (ops : List (ArenaOp α)) : EntityArena α :=
  ops.foldl applyOp a

/-- Generation counter at slot `i`. -/
def genAt {α : Type} (a : EntityArena α) (i : Nat) : Nat := a.generations.getD i 0

theorem getD_set_self {α : Type} (l : List α) (j : Nat) (x d : α) (h : j < l.length) :
    (l.set j x).getD j d = x := by
  rw [List.getD_eq_getElem?_getD, List.getElem?_set_self h]
  rfl

theorem getD_set_ne {α : Type} (l : List α) {i j : Nat} (x d : α) (h : j ≠ i) :
    (l.set j x).getD i d = l.getD i d := by
  rw [List.getD_eq_getElem?_getD, List.getElem?_set_ne h, ← List.getD_eq_getElem?_getD]

theorem getD_replicate_none {α : Type} (n i : Nat) :
    (List.replicate n (none : Option α)).getD i none = none := by
  rw [List.getD_eq_getElem?_getD, List.getElem?_replicate]
  split <;> rfl

theorem genAt_le_bump (l : List Nat) (j i : Nat) :
    l.getD i 0 ≤ (l.set j (l.getD j 0 + 1)).getD i 0 := by
  by_cases hlen : j < l.length
  · by_cases hij : i = j
    · subst hij
      rw [getD_set_self _ _ _ _ hlen]
      omega
    · rw [getD_set_ne _ _ _ (fun h => hij h.symm)]
  · rw [List.set_eq_of_length_le (by omega)]

theorem genAt_le_sweepStep {α : Type} (alive : α → Bool) (a : EntityArena α) (idx i : Nat) :
    genAt a i ≤ genAt (sweepStep alive a idx) i := by
  unfold sweepStep
  cases a.entities.getD idx none with
  | none => exact Nat.le_refl _
  | some e =>
    dsimp only
    by_cases ha : alive e
    · rw [if_pos ha]
    · rw [if_neg ha]
      exact genAt_le_bump a.generations idx i

theorem genAt_le_foldl {α : Type} (alive : α → Bool) (l : List Nat)
    (a : EntityArena α) (i : Nat) :
    genAt a i ≤ genAt (l.foldl (sweepStep alive) a) i := by
  induction l generalizing a with
  | nil => exact Nat.le_refl _
  | cons x xs ih => exact Nat.le_trans (genAt_le_sweepStep alive a x i) (ih _)

theorem genAt_le_applyOp {α : Type} (a : EntityArena α) (op : ArenaOp α) (i : Nat) :
    genAt a i ≤ genAt (applyOp a op) i := by
  cases op with
  | spawnOp e =>
    show genAt a i ≤ genAt (a.spawn e).2 i
    unfold EntityArena.spawn
    cases hfl : a.free_list with
    | cons x rest => exact Nat.le_refl _
    | nil =>
      show a.generations.getD i 0 ≤ (a.generations ++ [0]).getD i 0
      by_cases hi : i < a.generations.length
      · rw [List.getD_append _ _ _ _ hi]
      · rw [List.getD_eq_default _ _ (by omega)]
        exact Nat.zero_le _
  | despawnOp id =>
    show genAt a i ≤ genAt (a.despawn id).2 i
    unfold EntityArena.despawn
    split
    · exact genAt_le_bump a.generations id.index i
    · exact Nat.le_refl _
  | sweepOp alive => exact genAt_le_foldl alive _ a i

theorem genAt_le_applyOps {α : Type} (a : EntityArena α) (ops : List (ArenaOp α)) (i : Nat) :
    genAt a i ≤ genAt (applyOps a ops) i := by
  induction ops generalizing a with
  | nil => exact Nat.le_refl _
  | cons op rest ih => exact Nat.le_trans (genAt_le_applyOp a op i) (ih _)

theorem get_none_of_gen_ne {α : Type} (a : EntityArena α) (id : EntityId)
    (h : a.generations.getD id.index 0 ≠ id.generation) : a.get id = none := by
  unfold EntityArena.get
  rw [if_neg]
  rintro ⟨-, h2⟩
  exact h h2

theorem get_mut_none_of_gen_ne {α : Type} (a : EntityArena α) (id : EntityId)
    (h : a.generations.getD id.index 0 ≠ id.generation) : a.get_mut id = none := by
  unfold EntityArena.get_mut
  rw [if_neg]
  rintro ⟨-, h2⟩
  exact h h2

theorem despawn_false_of_gen_ne {α : Type} (a : EntityArena α) (id : EntityId)
    (h : a.generations.getD id.index 0 ≠ id.generation) : (a.despawn id).1 = false := by
  unfold EntityArena.despawn
  rw [if_neg]
  rintro ⟨-, h2, -⟩
  exact h h2

/-- C6: despawning an occupied slot and immediately respawning yields a handle
with the same slot index and generation exactly one greater, and the stale
handle fails `get` / `get_mut` / `despawn` after any further operation
sequence. -/
theorem C6_despawn_respawn {α : Type} (a : EntityArena α) (id : EntityId) (e2 : α)
    (hlen : a.generations.length = a.entities.length)
    (hidx : id.index < a.entities.length)
    (hgen : a.generations.getD id.index 0 = id.generation)
    (hocc : (a.entities.getD id.index none).isSome = true) :
    (a.despawn id).1 = true ∧
    ((a.despawn id).2.spawn e2).1
      = some { index := id.index, generation := id.generation + 1 } ∧
    id.generation < id.generation + 1 ∧
    (∀ ops : List (ArenaOp α),
      (applyOps ((a.despawn id).2.spawn e2).2 ops).get id = none ∧
      (applyOps ((a.despawn id).2.spawn e2).2 ops).get_mut id = none ∧
      ((applyOps ((a.despawn id).2.spawn e2).2 ops).despawn id).1 = false) := by
  have hd : a.despawn id = (true,
      { entities := a.entities.set id.index none,
        generations := a.generations.set id.index (a.generations.getD id.index 0 + 1),
        free_list := id.index :: a.free_list,
        count := a.count - 1 }) := by
    unfold EntityArena.despawn
    rw [if_pos ⟨hidx, hgen, hocc⟩]
  have hgen2 : (a.generations.set id.index (a.generations.getD id.index 0 + 1)).getD
      id.index 0 = id.generation + 1 := by
    rw [getD_set_self _ _ _ _ (by rw [hlen]; exact hidx), hgen]
  have hs : (a.despawn id).2.spawn e2
      = (some { index := id.index, generation := id.generation + 1 },
         { entities := (a.entities.set id.index none).set id.index (some e2),
           generations := a.generations.set id.index (a.generations.getD id.index 0 + 1),
           free_list := a.free_list,
           count := a.count - 1 + 1 }) := by
    rw [hd]
    show EntityArena.spawn _ e2 = _
    unfold EntityArena.spawn
    dsimp only
    rw [hgen2]
  refine ⟨by rw [hd], by rw [hs], Nat.lt_succ_self _, ?_⟩
  intro ops
  have hbase : genAt ((a.despawn id).2.spawn e2).2 id.index = id.generation + 1 := by
    rw [hs]
    exact hgen2
  have hmono := genAt_le_applyOps ((a.despawn id).2.spawn e2).2 ops id.index
  rw [hbase] at hmono
  simp only [genAt] at hmono
  exact ⟨get_none_of_gen_ne _ id (by omega), get_mut_none_of_gen_ne _ id (by omega),
    despawn_false_of_gen_ne _ id (by omega)⟩

/-- Witness for C6 on a one-slot arena. -/
theorem C6_despawn_respawn_witness :
    ((EntityArena.mk [some 0] [5] [] 1 : EntityArena Nat).despawn
        { index := 0, generation := 5 }).1 = true :=
  (C6_despawn_respawn (EntityArena.mk [some 0] [5] [] 1) { index := 0, generation := 5 } 7
      (by decide) (by decide) (by decide) (by decide)).1

/-- The arena's structural invariant: `count` tracks the number of occupied
slots, and the free list holds exactly the in-range unoccupied slot indices,
without duplicates. -/
structure ArenaWF {α : Type} (a : EntityArena α) : Prop where
  count_eq : a.count = a.entities.countP (fun o => o.isSome)
  mem_free : ∀ i : Nat,
    i ∈ a.free_list ↔ (i < a.entities.length ∧ a.entities.getD i none = none)
  nodup : a.free_list.Nodup

theorem countP_replicate_none {α : Type} (n : Nat) :
    (List.replicate n (none : Option α)).countP (fun o => o.isSome) = 0 := by
  induction n with
  | zero => rfl
  | succ m ih =>
    rw [List.replicate_succ, List.countP_cons, ih]
    simp

theorem wf_new (α : Type) (capacity : Nat) : ArenaWF (EntityArena.new α capacity) := by
  refine ⟨?_, ?_, ?_⟩
  · show 0 = List.countP (fun o => o.isSome) (List.replicate capacity (none : Option α))
    rw [countP_replicate_none]
  · intro i
    show i ∈ List.range capacity ↔
      (i < (List.replicate capacity (none : Option α)).length ∧
        (List.replicate capacity (none : Option α)).getD i none = none)
    rw [List.mem_range, List.length_replicate, getD_replicate_none]
    simp
  · exact List.nodup_range capacity

theorem getD_lt_length_of_isSome {α : Type} (l : List (Option α)) (i : Nat)
    (h : (l.getD i none).isSome = true) : i < l.length := by
  by_contra hi
  rw [List.getD_eq_default _ _ (by omega)] at h
  simp at h

theorem getD_eq_getElem_opt {α : Type} (l : List (Option α)) (i : Nat) (h : i < l.length) :
    l.getD i none = l[i] := List.getD_eq_getElem l none h

theorem wf_set_some {α : Type} (a : EntityArena α) (x : Nat) (rest : List Nat) (e : α)
    (hwf : ArenaWF a) (hfl : a.free_list = x :: rest) :
    ArenaWF { entities := a.entities.set x (some e), generations := a.generations,
              free_list := rest, count := a.count + 1 } := by
  obtain ⟨hx1, hx2⟩ : x < a.entities.length ∧ a.entities.getD x none = none :=
    (hwf.mem_free x).mp (by rw [hfl]; exact List.mem_cons_self x rest)
  have hxElem : a.entities[x] = none := by
    rw [← getD_eq_getElem_opt _ _ hx1]
    exact hx2
  have hnodup := hwf.nodup
  rw [hfl] at hnodup
  refine ⟨?_, ?_, ?_⟩
  · show a.count + 1 = _
    rw [List.countP_set _ _ _ _ hx1, hxElem, hwf.count_eq]
    simp
  · intro i
    show i ∈ rest ↔ i < (a.entities.set x (some e)).length ∧ _
    rw [List.length_set]
    by_cases hix : i = x
    · subst hix
      rw [getD_set_self _ _ _ _ hx1]
      simp only [List.nodup_cons] at hnodup
      constructor
      · intro hmem
        exact absurd hmem hnodup.1
      · rintro ⟨-, h2⟩
        exact absurd h2 (by simp)
    · rw [getD_set_ne _ _ _ (fun h => hix h.symm)]
      rw [← hwf.mem_free i, hfl, List.mem_cons]
      constructor
      · exact fun h => Or.inr h
      · rintro (h | h)
        · exact absurd h hix
        · exact h
  · simp only [List.nodup_cons] at hnodup
    exact hnodup.2

theorem wf_grow {α : Type} (a : EntityArena α) (e : α)
    (hwf : ArenaWF a) (hfl : a.free_list = []) :
    ArenaWF { entities := a.entities ++ [some e], generations := a.generations ++ [0],
              free_list := [], count := a.count + 1 } := by
  refine ⟨?_, ?_, List.nodup_nil⟩
  · show a.count + 1 = _
    rw [List.countP_append, hwf.count_eq]
    simp [List.countP_cons]
  · intro i
    show i ∈ ([] : List Nat) ↔ i < (a.entities ++ [some e]).length ∧ _
    rw [List.length_append]
    simp only [List.not_mem_nil, false_iff]
    rintro ⟨h1, h2⟩
    by_cases hi : i < a.entities.length
    · have := (hwf.mem_free i).mpr ⟨hi, by rwa [List.getD_append _ _ _ _ hi] at h2⟩
      rw [hfl] at this
      exact absurd this (List.not_mem_nil i)
    · have hieq : i = a.entities.length := by simp at h1; omega
      rw [List.getD_eq_getElem?_getD, List.getElem?_append_right (by omega), hieq] at h2
      simp at h2

/-- Shared core of the despawn / sweep slot-clearing step. -/
theorem wf_clear {α : Type} (a : EntityArena α) (idx : Nat)
    (hwf : ArenaWF a) (hocc : (a.entities.getD idx none).isSome = true) :
    ArenaWF { entities := a.entities.set idx none,
              generations := a.generations.set idx (a.generations.getD idx 0 + 1),
              free_list := idx :: a.free_list, count := a.count - 1 } := by
  have hidx : idx < a.entities.length := getD_lt_length_of_isSome _ _ hocc
  have hElem : (a.entities[idx]).isSome = true := by
    rw [← getD_eq_getElem_opt _ _ hidx]
    exact hocc
  have hnotfree : idx ∉ a.free_list := by
    intro hmem
    have := ((hwf.mem_free idx).mp hmem).2
    rw [this] at hocc
    simp at hocc
  refine ⟨?_, ?_, ?_⟩
  · show a.count - 1 = _
    rw [List.countP_set _ _ _ _ hidx, hElem, hwf.count_eq]
    simp
  · intro i
    show i ∈ idx :: a.free_list ↔ i < (a.entities.set idx none).length ∧ _
    rw [List.length_set, List.mem_cons]
    by_cases hix : i = idx
    · subst hix
      rw [getD_set_self _ _ _ _ hidx]
      simp [hidx]
    · rw [getD_set_ne _ _ _ (fun h => hix h.symm), ← hwf.mem_free i]
      constructor
      · rintro (h | h)
        · exact absurd h hix
        · exact h
      · exact fun h => Or.inr h
  · exact List.Nodup.cons hnotfree hwf.nodup

theorem wf_spawn {α : Type} (a : EntityArena α) (e : α) (hwf : ArenaWF a) :
    ArenaWF (a.spawn e).2 := by
  unfold EntityArena.spawn
  cases hfl : a.free_list with
  | cons x rest => exact wf_set_some a x rest e hwf hfl
  | nil => exact wf_grow a e hwf hfl

theorem wf_despawn {α : Type} (a : EntityArena α) (id : EntityId) (hwf : ArenaWF a) :
    ArenaWF (a.despawn id).2 := by
  unfold EntityArena.despawn
  split
  · next h => exact wf_clear a id.index hwf h.2.2
  · exact hwf

theorem wf_sweepStep {α : Type} (alive : α → Bool) (a : EntityArena α) (idx : Nat)
    (hwf : ArenaWF a) : ArenaWF (sweepStep alive a idx) := by
  unfold sweepStep
  cases hsl : a.entities.getD idx none with
  | none => exact hwf
  | some e =>
    dsimp only
    by_cases ha : alive e
    · rw [if_pos ha]
      exact hwf
    · rw [if_neg ha]
      exact wf_clear a idx hwf (by rw [hsl]; rfl)

theorem wf_foldl_sweep {α : Type} (alive : α → Bool) (l : List Nat) (a : EntityArena α)
    (hwf : ArenaWF a) : ArenaWF (l.foldl (sweepStep alive) a) := by
  induction l generalizing a with
  | nil => exact hwf
  | cons x xs ih => exact ih _ (wf_sweepStep alive a x hwf)

theorem wf_applyOp {α : Type} (a : EntityArena α) (op : ArenaOp α) (hwf : ArenaWF a) :
    ArenaWF (applyOp a op) := by
  cases op with
  | spawnOp e => exact wf_spawn a e hwf
  | despawnOp id => exact wf_despawn a id hwf
  | sweepOp alive => exact wf_foldl_sweep alive _ a hwf

theorem wf_applyOps {α : Type} (a : EntityArena α) (ops : List (ArenaOp α))
    (hwf : ArenaWF a) : ArenaWF (applyOps a ops) := by
  induction ops generalizing a with
  | nil => exact hwf
  | cons op rest ih => exact ih _ (wf_applyOp a op hwf)

/-- C10: after any sequence of spawn / despawn / sweep operations starting
from `new(capacity)`, `count` equals the number of occupied slots, and a slot
index is on the free list exactly when it is in range and unoccupied. -/
theorem C10_count_free_list_invariant {α : Type} (capacity : Nat)
    (ops : List (ArenaOp α)) :
    (applyOps (EntityArena.new α capacity) ops).count
      = (applyOps (EntityArena.new α capacity) ops).entities.countP (fun o => o.isSome) ∧
    ∀ i : Nat,
      i ∈ (applyOps (EntityArena.new α capacity) ops).free_list ↔
        (i < (applyOps (EntityArena.new α capacity) ops).entities.length ∧
          (applyOps (EntityArena.new α capacity) ops).entities.getD i none = none) := by
  have h := wf_applyOps (EntityArena.new α capacity) ops (wf_new α capacity)
  exact ⟨h.count_eq, h.mem_free⟩

/-! ## World and spatial hash (`world.rs`, `spatial_hash.rs`) -/

/-- 2D vector over ℚ (`macroquad::Vec2` as used by the core logic). -/
structure Vec2Q where
  x : ℚ
  y : ℚ
deriving DecidableEq

/-- `world.rs`: `World`. -/
structure WorldQ where
  width : ℚ
  height : ℚ
  toroidal : Bool

/-- `World::delta`: raw displacement `to - from`, folded per axis by ± the
world extent when its magnitude exceeds half the extent in a toroidal world. -/
def WorldQ.delta (w : WorldQ) (a b : Vec2Q) : Vec2Q :=
  let dx := b.x - a.x
  let dy := b.y - a.y
  if w.toroidal then
    { x := if dx > w.width * (1/2) then dx - w.width
           else if dx < -(w.width * (1/2)) then dx + w.width else dx,
      y := if dy > w.height * (1/2) then dy - w.height
           else if dy < -(w.height * (1/2)) then dy + w.height else dy }
  else { x := dx, y := dy }

/-- `World::distance_sq`: squared length of the shortest-path delta. -/
def WorldQ.distance_sq (w : WorldQ) (a b : Vec2Q) : ℚ :=
  (w.delta a b).x * (w.delta a b).x + (w.delta a b).y * (w.delta a b).y

/-- Entity payload relevant to the spatial hash: position and alive flag. -/
structure EntityR where
  pos : Vec2Q
  alive : Bool
deriving DecidableEq

/-- Rust `f32 as i32` cast: truncation toward zero. -/
def ratTrunc (q : ℚ) : Int := Int.tdiv q.num q.den

/-- `spatial_hash.rs`: `SpatialHash`. -/
structure SpatialHash where
  inv_cell_size : ℚ
  cols : Nat
  rows : Nat
  cells : List (List Nat)

/-- `SpatialHash::new`. -/
def SpatialHash.new (world_w world_h cell_size : ℚ) : SpatialHash :=
  { inv_cell_size := 1 / cell_size,
    cols := (⌈world_w / cell_size⌉ : Int).toNat,
    rows := (⌈world_h / cell_size⌉ : Int).toNat,
    cells := List.replicate ((⌈world_w / cell_size⌉ : Int).toNat
      * (⌈world_h / cell_size⌉ : Int).toNat) [] }

/-- Grid cell of a position during `rebuild` (`as usize` then `.min(dim-1)`). -/
def SpatialHash.cellOf (sh : SpatialHash) (pos : Vec2Q) : Nat :=
  let cx := min (ratTrunc (pos.x * sh.inv_cell_size)).toNat (sh.cols - 1)
  let cy := min (ratTrunc (pos.y * sh.inv_cell_size)).toNat (sh.rows - 1)
  cy * sh.cols + cx

/-- `SpatialHash::rebuild`: clear every bucket and re-insert the slot index of
every alive entity, bucketed by position. -/
def SpatialHash.rebuild (sh : SpatialHash) (a : EntityArena EntityR) : SpatialHash :=
  { sh with
    cells := a.entities.enum.foldl
      (fun cells p =>
        match p.2 with
        | some e =>
            if e.alive then
              cells.set (sh.cellOf e.pos) (cells.getD (sh.cellOf e.pos) [] ++ [p.1])
            else cells
        | none => cells)
      (List.replicate sh.cells.length []) }

/-- Inclusive integer range `lo..=hi`. -/
def intRange (lo hi : Int) : List Int :=
  (List.range (hi + 1 - lo).toNat).map fun k => lo + (k : Int)

/-- The per-candidate test of `query_radius`: slot occupied, entity alive, and
exact folded-distance check against the squared radius. -/
def hitTest (w : WorldQ) (a : EntityArena EntityR) (pos : Vec2Q) (radiusSq : ℚ)
    (idx : Nat) : Bool :=
  match a.get_by_index idx with
  | some e => e.alive && decide (w.distance_sq pos e.pos ≤ radiusSq)
  | none => false

/-- `SpatialHash::query_radius`: visit all cells within
`ceil(radius/cell_size)+1` of the query cell (wrapped when toroidal, bounds
checked otherwise) and filter each bucket by the exact alive/distance test. -/
def SpatialHash.query_radius (sh : SpatialHash) (pos : Vec2Q) (radius : ℚ)
    (w : WorldQ) (a : EntityArena EntityR) : List Nat :=
  let radiusSq := radius * radius
  let cellsRange := (⌈radius * sh.inv_cell_size⌉ : Int) + 1
  let cx := ratTrunc (pos.x * sh.inv_cell_size)
  let cy := ratTrunc (pos.y * sh.inv_cell_size)
  (intRange (-cellsRange) cellsRange).flatMap fun dy =>
    (intRange (-cellsRange) cellsRange).flatMap fun dx =>
      let gx := cx + dx
      let gy := cy + dy
      if w.toroidal then
        let gxw := (gx % (sh.cols : Int)).toNat
        let gyw := (gy % (sh.rows : Int)).toNat
        (sh.cells.getD (gyw * sh.cols + gxw) []).filter (hitTest w a pos radiusSq)
      else
        if gx < 0 ∨ (sh.cols : Int) ≤ gx ∨ gy < 0 ∨ (sh.rows : Int) ≤ gy then []
        else (sh.cells.getD (gy.toNat * sh.cols + gx.toNat) []).filter
          (hitTest w a pos radiusSq)

/-- `SpatialHash::query_radius_excluding`: same result with one slot index
retained out. -/
def SpatialHash.query_radius_excluding (sh : SpatialHash) (pos : Vec2Q) (radius : ℚ)
    (excludeIdx : Nat) (w : WorldQ) (a : EntityArena EntityR) : List Nat :=
  (sh.query_radius pos radius w a).filter fun idx => idx ≠ excludeIdx

theorem mem_query_radius {sh : SpatialHash} {pos : Vec2Q} {radius : ℚ} {w : WorldQ}
    {a : EntityArena EntityR} {idx : Nat} (h : idx ∈ sh.query_radius pos radius w a) :
    hitTest w a pos (radius * radius) idx = true := by
  unfold SpatialHash.query_radius at h
  rw [List.mem_flatMap] at h
  obtain ⟨dy, -, h⟩ := h
  rw [List.mem_flatMap] at h
  obtain ⟨dx, -, h⟩ := h
  dsimp only at h
  split at h
  · exact (List.mem_filter.mp h).2
  · split at h
    · exact absurd h (List.not_mem_nil idx)
    · exact (List.mem_filter.mp h).2

theorem hitTest_spec {w : WorldQ} {a : EntityArena EntityR} {pos : Vec2Q} {radiusSq : ℚ}
    {idx : Nat} (h : hitTest w a pos radiusSq idx = true) :
    ∃ e, a.get_by_index idx = some e ∧ e.alive = true ∧ w.distance_sq pos e.pos ≤ radiusSq := by
  unfold hitTest at h
  cases hg : a.get_by_index idx with
  | none => rw [hg] at h; exact absurd h (by simp)
  | some e =>
    rw [hg] at h
    simp only [Bool.and_eq_true, decide_eq_true_eq] at h
    exact ⟨e, rfl, h.1, h.2⟩

/-- C7: every slot returned by `query_radius` refers to an occupied slot whose
entity is alive and whose world shortest-path squared distance to the query
point is at most `radius²`; and `query_radius_excluding` never returns the
excluded slot (while its results satisfy the same distance/alive property). -/
theorem C7_query_radius_sound :
    (∀ (sh : SpatialHash) (pos : Vec2Q) (radius : ℚ) (w : WorldQ)
        (a : EntityArena EntityR) (idx : Nat),
      idx ∈ sh.query_radius pos radius w a →
      ∃ e, a.get_by_index idx = some e ∧ e.alive = true
        ∧ w.distance_sq pos e.pos ≤ radius * radius) ∧
    (∀ (sh : SpatialHash) (pos : Vec2Q) (radius : ℚ) (excludeIdx : Nat) (w : WorldQ)
        (a : EntityArena EntityR) (idx : Nat),
      idx ∈ sh.query_radius_excluding pos radius excludeIdx w a →
      idx ≠ excludeIdx ∧
      ∃ e, a.get_by_index idx = some e ∧ e.alive = true
        ∧ w.distance_sq pos e.pos ≤ radius * radius) := by
  constructor
  · intro sh pos radius w a idx h
    exact hitTest_spec (mem_query_radius h)
  · intro sh pos radius excludeIdx w a idx h
    unfold SpatialHash.query_radius_excluding at h
    have h2 := List.mem_filter.mp h
    refine ⟨by simpa using h2.2, hitTest_spec (mem_query_radius h2.1)⟩

/-- C9: `query_radius` re-checks the alive flag at query time — a slot whose
entity is dead at query time is never returned, even if its index is still
present in the (possibly stale) grid cells. -/
theorem C9_query_rechecks_alive (sh : SpatialHash) (pos : Vec2Q) (radius : ℚ)
    (w : WorldQ) (a : EntityArena EntityR) (idx : Nat) (e : EntityR)
    (hidx : a.get_by_index idx = some e) (hdead : e.alive = false) :
    idx ∉ sh.query_radius pos radius w a := by
  intro hmem
  obtain ⟨e2, hg2, halive, -⟩ := hitTest_spec (mem_query_radius hmem)
  rw [hidx] at hg2
  cases hg2
  rw [hdead] at halive
  exact absurd halive (by simp)

/-- Concrete world for the spatial-hash witnesses. -/
def exWorld : WorldQ := { width := 100, height := 100, toroidal := false }

/-- Concrete one-entity arena (alive) for the C7 witness. -/
def exArena : EntityArena EntityR :=
  { entities := [some { pos := { x := 0, y := 0 }, alive := true }],
    generations := [0], free_list := [], count := 1 }

/-- Concrete one-entity arena (dead) for the C9 witness. -/
def exArenaDead : EntityArena EntityR :=
  { entities := [some { pos := { x := 0, y := 0 }, alive := false }],
    generations := [0], free_list := [], count := 1 }

/-- Concrete 1×1 spatial hash whose single cell holds slot 0. -/
def exHash : SpatialHash :=
  { inv_cell_size := 1, cols := 1, rows := 1, cells := [[0]] }

theorem ratTrunc_zero : ratTrunc 0 = 0 := by
  unfold ratTrunc
  norm_num [Rat.num_ofNat, Rat.den_ofNat]

theorem intRange_neg_one_one : intRange (-1) 1 = [-1, 0, 1] := by decide

/-- Evaluation of the concrete witness query: it returns exactly slot 0. -/
theorem exQuery_eq :
    exHash.query_radius { x := 0, y := 0 } 0 exWorld exArena = [0] := by
  have hHit : hitTest { width := 100, height := 100, toroidal := false }
      { entities := [some { pos := { x := 0, y := 0 }, alive := true }], generations := [0],
        free_list := [], count := 1 } { x := 0, y := 0 } 0 0 = true := by
    unfold hitTest EntityArena.get_by_index
    simp only [List.getD_cons_zero]
    norm_num [WorldQ.distance_sq, WorldQ.delta]
  simp only [SpatialHash.query_radius, exHash, exWorld, exArena, zero_mul, mul_one,
    Int.ceil_zero, ratTrunc_zero, zero_add, intRange_neg_one_one]
  norm_num [List.flatMap_cons, List.flatMap_nil, List.filter, hHit]

/-- Witness for C7 on a concrete query that returns slot 0. -/
theorem C7_query_radius_sound_witness :
    (∃ e, exArena.get_by_index 0 = some e ∧ e.alive = true
      ∧ exWorld.distance_sq { x := 0, y := 0 } e.pos ≤ 0 * 0) ∧
    ((0 : Nat) ≠ 3 ∧ ∃ e, exArena.get_by_index 0 = some e ∧ e.alive = true
      ∧ exWorld.distance_sq { x := 0, y := 0 } e.pos ≤ 0 * 0) :=
  ⟨C7_query_radius_sound.1 exHash { x := 0, y := 0 } 0 exWorld exArena 0
      (by rw [exQuery_eq]; exact List.mem_singleton.mpr rfl),
   C7_query_radius_sound.2 exHash { x := 0, y := 0 } 0 3 exWorld exArena 0
      (by
        unfold SpatialHash.query_radius_excluding
        rw [exQuery_eq]
        simp)⟩

/-- Witness for C9: slot 0 is in the grid cell but its entity is dead, so the
query does not return it. -/
theorem C9_query_rechecks_alive_witness :
    0 ∉ exHash.query_radius { x := 0, y := 0 } 1 exWorld exArenaDead :=
  C9_query_rechecks_alive exHash { x := 0, y := 0 } 1 exWorld exArenaDead 0
    { pos := { x := 0, y := 0 }, alive := false } rfl rfl

/-! ## CTRNN brain runtime (`brain.rs`)

The transcendental `sigmoid(x) = 1/(1+exp(-x))` has no exact rational
embedding, so the step function is parametric in the activation function
`σ : ℚ → ℚ`; every theorem below holds for all `σ`, in particular for the
source's sigmoid. -/

/-- `brain.rs`: `BrainStorage` (structure-of-arrays, one entry per slot). -/
structure BrainStorage where
  states : List (List ℚ)
  tau_inv : List (List ℚ)
  biases : List (List ℚ)
  weights : List (List ℚ)
  outputs : List (List ℚ)
  active : List Bool

/-- `brain.rs`: `MotorOutputs`. -/
structure MotorOutputs where
  forward : ℚ
  turn : ℚ
  eat : ℚ
  attack : ℚ
  share : ℚ
  pickup : ℚ
  reproduce : ℚ
  signal_rgb : ℚ × ℚ × ℚ
deriving DecidableEq

/-- `MotorOutputs::default()`: all fields zero. -/
def MotorOutputs.zeroed : MotorOutputs :=
  { forward := 0, turn := 0, eat := 0, attack := 0, share := 0, pickup := 0,
    reproduce := 0, signal_rgb := (0, 0, 0) }

/-- `BrainStorage::motor_outputs` on one slot's outputs vector: default when
shorter than `BRAIN_MOTOR_NEURONS`, otherwise read the last ten channels
(`turn` mapped by `o*2-1`). -/
def motorOutputsOf (o : List ℚ) : MotorOutputs :=
  if o.length < BRAIN_MOTOR_NEURONS then MotorOutputs.zeroed
  else
    let motor_start := o.length - BRAIN_MOTOR_NEURONS
    { forward := o.getD motor_start 0,
      turn := o.getD (motor_start + 1) 0 * 2 - 1,
      eat := o.getD (motor_start + 2) 0,
      attack := o.getD (motor_start + 3) 0,
      share := o.getD (motor_start + 4) 0,
      pickup := o.getD (motor_start + 5) 0,
      reproduce := o.getD (motor_start + 6) 0,
      signal_rgb := (o.getD (motor_start + 7) 0, o.getD (motor_start + 8) 0,
        o.getD (motor_start + 9) 0) }

/-- `BrainStorage::motor_outputs(slot)`. -/
def BrainStorage.motor_outputs (bs : BrainStorage) (slot : Nat) : MotorOutputs :=
  motorOutputsOf (bs.outputs.getD slot [])

/-- The membrane potentials of one slot after the sensor overwrite:
the first `BRAIN_SENSOR_NEURONS` entries are driven by the sensor vector
(when one is supplied for the slot), the rest keep their previous values. -/
def sensorWrite (st : List ℚ) (sensors : Option (List ℚ)) : List ℚ :=
  match sensors with
  | some sv =>
      List.ofFn (n := st.length) fun i =>
        if i.val < BRAIN_SENSOR_NEURONS then sv.getD i.val 0 else st.getD i.val 0
  | none => st

/-- One slot's forward-Euler update (`brain.rs` `step_all` body): activations
are `σ` of the post-sensor-write potentials, every non-sensor neuron gets one
Euler step and is clamped into `[-20, 20]`. -/
def stepSlotStates (σ : ℚ → ℚ) (st tauInv biases weights : List ℚ)
    (sensors : Option (List ℚ)) (dt : ℚ) : List ℚ :=
  let n := st.length
  let st1 := sensorWrite st sensors
  List.ofFn (n := n) fun i =>
    if i.val < BRAIN_SENSOR_NEURONS then st1.getD i.val 0
    else
      let inputSum := (List.range n).foldl
        (fun acc j => acc + weights.getD (i.val * n + j) 0 * σ (st1.getD j 0))
        (biases.getD i.val 0)
      rclamp (st1.getD i.val 0
        + (-(st1.getD i.val 0) + inputSum) * tauInv.getD i.val 0 * dt) (-20) 20

/-- Whether `step_all` updates slot `s`: the slot is active and has at least
`sensor_count + motor_count` neurons. -/
def stepGuard (bs : BrainStorage) (s : Nat) : Bool :=
  bs.active.getD s false &&
    decide (BRAIN_SENSOR_NEURONS + BRAIN_MOTOR_NEURONS ≤ (bs.states.getD s []).length)

/-- New membrane potentials of slot `s` after `step_all`. -/
def slotNewStates (σ : ℚ → ℚ) (bs : BrainStorage) (sensorInputs : List (List ℚ))
    (dt : ℚ) (s : Nat) : List ℚ :=
  if stepGuard bs s then
    stepSlotStates σ (bs.states.getD s []) (bs.tau_inv.getD s []) (bs.biases.getD s [])
      (bs.weights.getD s [])
      (if s < sensorInputs.length then some (sensorInputs.getD s []) else none) dt
  else bs.states.getD s []

/-- `BrainStorage::step_all`: every guarded slot gets one Euler step and its
outputs recomputed as `σ` of the new potentials; other slots are untouched. -/
def BrainStorage.step_all (σ : ℚ → ℚ) (bs : BrainStorage)
    (sensorInputs : List (List ℚ)) (dt : ℚ) : BrainStorage :=
  { bs with
    states := List.ofFn (n := bs.states.length) fun s =>
      slotNewStates σ bs sensorInputs dt s.val,
    outputs := List.ofFn (n := bs.outputs.length) fun s =>
      if stepGuard bs s.val then (slotNewStates σ bs sensorInputs dt s.val).map σ
      else bs.outputs.getD s.val [] }

/-- C4 counterexample: an outputs vector of length 12 — below
`sensor_count + motor_count = 25` but not below `motor_count = 10` — filled
with ones yields a non-zero motor record, refuting the claim that every slot
with fewer than `sensor_count + motor_count` neurons gets the all-zero
record. -/
theorem C4_motor_outputs_counterexample :
    ((BrainStorage.mk [] [] [] [] [List.replicate 12 (1 : ℚ)] []).outputs.getD 0 []).length
        < BRAIN_SENSOR_NEURONS + BRAIN_MOTOR_NEURONS ∧
    (BrainStorage.mk [] [] [] [] [List.replicate 12 (1 : ℚ)] []).motor_outputs 0
        ≠ MotorOutputs.zeroed := by
  refine ⟨by decide, fun h => ?_⟩
  have hf := congrArg MotorOutputs.forward h
  have hf1 : ((BrainStorage.mk [] [] [] [] [List.replicate 12 (1 : ℚ)] []).motor_outputs
      0).forward = 1 := rfl
  rw [hf1] at hf
  have : (0 : ℚ) ≠ 1 := by norm_num
  exact this hf.symm

/-- C4 (amended): `motor_outputs` returns the all-zero record exactly when
the outputs vector is shorter than `motor_count` (10) — not
`sensor_count + motor_count` — and otherwise reads the last ten channels
(`turn` affinely remapped), all its reads being in bounds. -/
theorem C4_motor_outputs_guard (o : List ℚ) :
    (o.length < BRAIN_MOTOR_NEURONS → motorOutputsOf o = MotorOutputs.zeroed) ∧
    (BRAIN_MOTOR_NEURONS ≤ o.length →
      motorOutputsOf o =
        { forward := o.getD (o.length - BRAIN_MOTOR_NEURONS) 0,
          turn := o.getD (o.length - BRAIN_MOTOR_NEURONS + 1) 0 * 2 - 1,
          eat := o.getD (o.length - BRAIN_MOTOR_NEURONS + 2) 0,
          attack := o.getD (o.length - BRAIN_MOTOR_NEURONS + 3) 0,
          share := o.getD (o.length - BRAIN_MOTOR_NEURONS + 4) 0,
          pickup := o.getD (o.length - BRAIN_MOTOR_NEURONS + 5) 0,
          reproduce := o.getD (o.length - BRAIN_MOTOR_NEURONS + 6) 0,
          signal_rgb := (o.getD (o.length - BRAIN_MOTOR_NEURONS + 7) 0,
            o.getD (o.length - BRAIN_MOTOR_NEURONS + 8) 0,
            o.getD (o.length - BRAIN_MOTOR_NEURONS + 9) 0) } ∧
      o.length - BRAIN_MOTOR_NEURONS + 9 < o.length) := by
  constructor
  · intro h
    unfold motorOutputsOf
    rw [if_pos h]
  · intro h
    refine ⟨?_, by simp only [BRAIN_MOTOR_NEURONS] at h ⊢; omega⟩
    unfold motorOutputsOf
    rw [if_neg (by omega)]

/-- Witness for C4: the empty vector yields the zero record; a length-12
vector exercises the in-bounds read path. -/
theorem C4_motor_outputs_guard_witness :
    motorOutputsOf [] = MotorOutputs.zeroed ∧
    (List.replicate 12 (1 : ℚ)).length - BRAIN_MOTOR_NEURONS + 9
      < (List.replicate 12 (1 : ℚ)).length :=
  ⟨(C4_motor_outputs_guard []).1 (by decide),
   ((C4_motor_outputs_guard (List.replicate 12 (1 : ℚ))).2 (by decide)).2⟩

theorem getD_map_lt {l : List ℚ} (σ : ℚ → ℚ) {i : Nat} (h : i < l.length) :
    (l.map σ).getD i 0 = σ (l.getD i 0) := by
  rw [List.getD_eq_getElem _ _ (by simpa using h), List.getD_eq_getElem _ _ h,
    List.getElem_map]

theorem foldl_add_eq_sum (f : Nat → ℚ) (b : ℚ) (n : Nat) :
    (List.range n).foldl (fun acc j => acc + f j) b = b + ∑ j ∈ Finset.range n, f j := by
  induction n with
  | zero => simp
  | succ m ih =>
    rw [List.range_succ, List.foldl_append, ih, Finset.sum_range_succ]
    simp only [List.foldl_cons, List.foldl_nil]
    ring

theorem rclamp_bounds (x lo hi : ℚ) (h : lo ≤ hi) :
    lo ≤ rclamp x lo hi ∧ rclamp x lo hi ≤ hi := by
  unfold rclamp
  split
  · exact ⟨le_refl lo, h⟩
  · split
    · exact ⟨h, le_refl hi⟩
    · constructor <;> linarith

theorem sensorWrite_getD (st sv : List ℚ) {i : Nat} (h : i < st.length) :
    (sensorWrite st (some sv)).getD i 0
      = if i < BRAIN_SENSOR_NEURONS then sv.getD i 0 else st.getD i 0 := by
  unfold sensorWrite
  exact getD_ofFn _ i h

theorem stepSlotStates_length (σ : ℚ → ℚ) (st tauInv biases weights : List ℚ)
    (sensors : Option (List ℚ)) (dt : ℚ) :
    (stepSlotStates σ st tauInv biases weights sensors dt).length = st.length := by
  unfold stepSlotStates
  exact List.length_ofFn _

theorem stepSlotStates_sensor (σ : ℚ → ℚ) (st tauInv biases weights sv : List ℚ)
    (dt : ℚ) {i : Nat} (hi : i < st.length) (hiS : i < BRAIN_SENSOR_NEURONS) :
    (stepSlotStates σ st tauInv biases weights (some sv) dt).getD i 0 = sv.getD i 0 := by
  unfold stepSlotStates
  rw [getD_ofFn _ i hi]
  dsimp only
  rw [if_pos hiS, sensorWrite_getD st sv hi, if_pos hiS]

theorem stepSlotStates_euler (σ : ℚ → ℚ) (st tauInv biases weights sv : List ℚ)
    (dt : ℚ) {i : Nat} (hi : i < st.length) (hiS : BRAIN_SENSOR_NEURONS ≤ i) :
    (stepSlotStates σ st tauInv biases weights (some sv) dt).getD i 0
      = rclamp (st.getD i 0
          + (-(st.getD i 0)
             + (biases.getD i 0
                + ∑ j ∈ Finset.range st.length,
                    weights.getD (i * st.length + j) 0
                      * σ (if j < BRAIN_SENSOR_NEURONS then sv.getD j 0 else st.getD j 0)))
            * tauInv.getD i 0 * dt) (-20) 20 := by
  unfold stepSlotStates
  rw [getD_ofFn _ i hi]
  dsimp only
  rw [if_neg (by omega), foldl_add_eq_sum, sensorWrite_getD st sv hi, if_neg (by omega)]
  have hsum : ∑ j ∈ Finset.range st.length,
        weights.getD (i * st.length + j) 0 * σ ((sensorWrite st (some sv)).getD j 0)
      = ∑ j ∈ Finset.range st.length,
        weights.getD (i * st.length + j) 0
          * σ (if j < BRAIN_SENSOR_NEURONS then sv.getD j 0 else st.getD j 0) := by
    apply Finset.sum_congr rfl
    intro j hj
    rw [sensorWrite_getD st sv (Finset.mem_range.mp hj)]
  rw [hsum]

theorem step_all_states_at (σ : ℚ → ℚ) (bs : BrainStorage) (sensorInputs : List (List ℚ))
    (dt : ℚ) {s : Nat} (hs : s < bs.states.length) :
    (bs.step_all σ sensorInputs dt).states.getD s []
      = slotNewStates σ bs sensorInputs dt s := by
  unfold BrainStorage.step_all
  show (List.ofFn fun v : Fin bs.states.length =>
    slotNewStates σ bs sensorInputs dt v.val).getD s [] = _
  rw [List.getD_eq_getElem _ _ (by simpa using hs), List.getElem_ofFn]

theorem step_all_outputs_at (σ : ℚ → ℚ) (bs : BrainStorage) (sensorInputs : List (List ℚ))
    (dt : ℚ) {s : Nat} (hso : s < bs.outputs.length) :
    (bs.step_all σ sensorInputs dt).outputs.getD s []
      = if stepGuard bs s then (slotNewStates σ bs sensorInputs dt s).map σ
        else bs.outputs.getD s [] := by
  unfold BrainStorage.step_all
  show (List.ofFn fun v : Fin bs.outputs.length =>
    if stepGuard bs v.val then (slotNewStates σ bs sensorInputs dt v.val).map σ
    else bs.outputs.getD v.val []).getD s [] = _
  rw [List.getD_eq_getElem _ _ (by simpa using hso), List.getElem_ofFn]

/-- C5: for an active slot with at least `sensor_count + motor_count` neurons
and a supplied sensor vector, one `step_all` call (i) overwrites the first
`sensor_count` potentials with the slot's sensor vector, (ii) gives every
non-sensor neuron exactly one forward-Euler update
`state += (-state + bias + Σ_j w[i][j]·σ(pre-update state[j]))·tau_inv·dt`
followed by a clamp into `[-20, 20]`, where the pre-update state already has
the sensors written, (iii) sets every output to `σ` of the new potential, and
(iv) leaves every non-sensor potential inside `[-20, 20]`. Stated for every
activation function `σ`, hence for the source's `sigmoid`. -/
theorem C5_step_all_euler (σ : ℚ → ℚ) (bs : BrainStorage)
    (sensorInputs : List (List ℚ)) (dt : ℚ) (s : Nat)
    (hs : s < bs.states.length)
    (hso : s < bs.outputs.length)
    (hact : bs.active.getD s false = true)
    (hn : BRAIN_SENSOR_NEURONS + BRAIN_MOTOR_NEURONS ≤ (bs.states.getD s []).length)
    (hsi : s < sensorInputs.length) :
    (∀ i : Nat, i < BRAIN_SENSOR_NEURONS →
      ((bs.step_all σ sensorInputs dt).states.getD s []).getD i 0
        = (sensorInputs.getD s []).getD i 0) ∧
    (∀ i : Nat, BRAIN_SENSOR_NEURONS ≤ i → i < (bs.states.getD s []).length →
      ((bs.step_all σ sensorInputs dt).states.getD s []).getD i 0
        = rclamp ((bs.states.getD s []).getD i 0
            + (-((bs.states.getD s []).getD i 0)
               + ((bs.biases.getD s []).getD i 0
                  + ∑ j ∈ Finset.range (bs.states.getD s []).length,
                      (bs.weights.getD s []).getD (i * (bs.states.getD s []).length + j) 0
                        * σ (if j < BRAIN_SENSOR_NEURONS
                             then (sensorInputs.getD s []).getD j 0
                             else (bs.states.getD s []).getD j 0)))
              * (bs.tau_inv.getD s []).getD i 0 * dt) (-20) 20) ∧
    (∀ i : Nat, i < (bs.states.getD s []).length →
      ((bs.step_all σ sensorInputs dt).outputs.getD s []).getD i 0
        = σ (((bs.step_all σ sensorInputs dt).states.getD s []).getD i 0)) ∧
    (∀ i : Nat, BRAIN_SENSOR_NEURONS ≤ i → i < (bs.states.getD s []).length →
      -20 ≤ ((bs.step_all σ sensorInputs dt).states.getD s []).getD i 0 ∧
      ((bs.step_all σ sensorInputs dt).states.getD s []).getD i 0 ≤ 20) := by
  have hguard : stepGuard bs s = true := by
    unfold stepGuard
    rw [hact]
    simpa using hn
  have hslot : slotNewStates σ bs sensorInputs dt s
      = stepSlotStates σ (bs.states.getD s []) (bs.tau_inv.getD s []) (bs.biases.getD s [])
        (bs.weights.getD s []) (some (sensorInputs.getD s [])) dt := by
    unfold slotNewStates
    rw [if_pos hguard, if_pos hsi]
  have hstates : (bs.step_all σ sensorInputs dt).states.getD s []
      = stepSlotStates σ (bs.states.getD s []) (bs.tau_inv.getD s []) (bs.biases.getD s [])
        (bs.weights.getD s []) (some (sensorInputs.getD s [])) dt := by
    rw [step_all_states_at σ bs sensorInputs dt hs, hslot]
  refine ⟨?_, ?_, ?_, ?_⟩
  · intro i hiS
    rw [hstates]
    exact stepSlotStates_sensor σ _ _ _ _ _ dt (by omega) hiS
  · intro i hiS hin
    rw [hstates]
    exact stepSlotStates_euler σ _ _ _ _ _ dt hin hiS
  · intro i hin
    rw [step_all_outputs_at σ bs sensorInputs dt hso, if_pos hguard, hslot, hstates]
    exact getD_map_lt σ (by rw [stepSlotStates_length]; exact hin)
  · intro i hiS hin
    rw [hstates, stepSlotStates_euler σ _ _ _ _ _ dt hin hiS]
    exact rclamp_bounds _ _ _ (by norm_num)

/-- Concrete one-slot brain storage for the C5 witness. -/
def exBrain : BrainStorage :=
  { states := [List.replicate 25 0],
    tau_inv := [List.replicate 25 1],
    biases := [List.replicate 25 0],
    weights := [List.replicate 625 0],
    outputs := [List.replicate 25 0],
    active := [true] }

/-- Witness for C5: the clamp bound at neuron 15 of the concrete one-slot
brain, with the identity taken for `σ`. -/
theorem C5_step_all_euler_witness :
    -20 ≤ ((exBrain.step_all (fun q => q) [List.replicate 15 0] 1).states.getD 0 []).getD
        15 0 ∧
    ((exBrain.step_all (fun q => q) [List.replicate 15 0] 1).states.getD 0 []).getD
        15 0 ≤ 20 :=
  (C5_step_all_euler (fun q => q) exBrain [List.replicate 15 0] 1 0 (by decide) (by decide)
      (by decide) (by decide) (by decide)).2.2.2 15 (by decide) (by decide)

/-! ## Initial simulation population (`simulation.rs` `SimState::new`)

`SimState::new` seeds one `ChaCha8Rng` from the seed and consumes it
sequentially: per entity it draws `pos.x`, `pos.y`, the `Genome::random`
gene array (default topology), then the heading. With the PRNG embedded as
the stream of drawn values (two constructions share the stream exactly when
they use the same seed, by ChaCha8 determinism), slot `i` receives the
`i`-th entity because the fresh arena's free list pops `0, 1, 2, …`. -/

/-- Gene count drawn by `Genome::random` (default interneuron count). -/
def DEFAULT_GENOME_LEN : Nat := total_gene_len_for_inter BRAIN_INTERNEURONS_DEFAULT

/-- The per-slot data produced by the `SimState::new` spawn loop. -/
structure InitEntity where
  pos_x : ℚ
  pos_y : ℚ
  heading : ℚ
  genome : Genome
deriving DecidableEq

/-- The entity built from draws `base, base+1, …` of the stream: position x/y,
then the genome's genes, then the heading. -/
def initEntityAt (stream : Nat → ℚ) (base : Nat) : InitEntity :=
  { pos_x := stream base,
    pos_y := stream (base + 1),
    genome := Genome.random fun k => stream (base + 2 + k),
    heading := stream (base + 2 + DEFAULT_GENOME_LEN) }

/-- The initial entity list of `SimState::new(entity_count, seed)`: slot `i`
holds the `i`-th generated entity, whose draws start at
`i * (3 + DEFAULT_GENOME_LEN)`. -/
def sim_initial_entities (entityCount : Nat) (stream : Nat → ℚ) : List InitEntity :=
  List.ofFn (n := entityCount) fun i => initEntityAt stream (i.val * (3 + DEFAULT_GENOME_LEN))

/-- C8: two simulation states built with the same seed and entity count (and
hence, by ChaCha8 determinism, the same draw stream) have identical initial
positions, headings and genome gene arrays at every slot. -/
theorem C8_same_seed_same_population (entityCount : Nat) (s1 s2 : Nat → ℚ)
    (hseed : ∀ k, s1 k = s2 k) :
    sim_initial_entities entityCount s1 = sim_initial_entities entityCount s2 ∧
    (∀ i : Nat,
      ((sim_initial_entities entityCount s1).getD i (initEntityAt s1 0)).pos_x
        = ((sim_initial_entities entityCount s2).getD i (initEntityAt s2 0)).pos_x ∧
      ((sim_initial_entities entityCount s1).getD i (initEntityAt s1 0)).pos_y
        = ((sim_initial_entities entityCount s2).getD i (initEntityAt s2 0)).pos_y ∧
      ((sim_initial_entities entityCount s1).getD i (initEntityAt s1 0)).heading
        = ((sim_initial_entities entityCount s2).getD i (initEntityAt s2 0)).heading ∧
      ((sim_initial_entities entityCount s1).getD i (initEntityAt s1 0)).genome.inter_neurons
        = ((sim_initial_entities entityCount s2).getD i
            (initEntityAt s2 0)).genome.inter_neurons ∧
      ((sim_initial_entities entityCount s1).getD i (initEntityAt s1 0)).genome.genes
        = ((sim_initial_entities entityCount s2).getD i (initEntityAt s2 0)).genome.genes) := by
  have hfun : s1 = s2 := funext hseed
  subst hfun
  exact ⟨rfl, fun i => ⟨rfl, rfl, rfl, rfl, rfl⟩⟩

/-- Witness for C8 with the constant-zero stream and two entities. -/
theorem C8_same_seed_same_population_witness :
    sim_initial_entities 2 (fun _ => 0) = sim_initial_entities 2 (fun _ => 0) :=
  (C8_same_seed_same_population 2 (fun _ => 0) (fun _ => 0) (fun _ => rfl)).1

end AIEvo
